import Mathlib

/-!
Verification of the cowCode agent system against its specification.

Shallow embedding of the relevant source modules:
* chat log (`appendExchange`, `appendGroupExchange`, `readLastPrivateExchanges`)
* timezone helpers (`isInTideInactiveWindow`)
* memory configuration (`getMemoryConfig`) and the `memory_search` tool
* skill dispatch (`executeSkill`) and the core shell executor (`executeCore`)
* the cron runner (`startCron` one-shot handling, `scheduleOneShot`, `runJob`)

JavaScript strings are modelled as Lean `String`; JS `trim` is modelled by
`jsTrim` (drop whitespace at both ends).  File systems are modelled as maps
from path-segment lists to optional line lists (`none` = file absent), which
mirrors `path.join` segment construction and `existsSync`.  JS numbers that
can be `NaN` are modelled by `JSNum`.
-/

namespace CowCode

/-- Whitespace predicate used by the JS `String.prototype.trim` model. -/
def wsChar (c : Char) : Bool := c.isWhitespace

/-- Drop leading whitespace, then trailing whitespace, of a char list. -/
def jsTrimL (l : List Char) : List Char :=
  ((((l.dropWhile wsChar).reverse).dropWhile wsChar)).reverse

/-- Model of JS `String.prototype.trim`. -/
def jsTrim (s : String) : String := ⟨jsTrimL s.data⟩

theorem dropWhile_dropWhile (p : Char → Bool) (l : List Char) :
    (l.dropWhile p).dropWhile p = l.dropWhile p := by
  induction l with
  | nil => rfl
  | cons a l ih =>
    by_cases h : p a
    · simp [List.dropWhile_cons, h, ih]
    · simp [List.dropWhile_cons, h]

theorem dropWhile_head_false (p : Char → Bool) :
    ∀ {l : List Char} {a : Char} {t : List Char},
      l.dropWhile p = a :: t → p a = false := by
  intro l
  induction l with
  | nil => intro a t h; simp at h
  | cons x xs ih =>
    intro a t h
    by_cases hx : p x
    · rw [List.dropWhile_cons, if_pos hx] at h
      exact ih h
    · rw [List.dropWhile_cons, if_neg hx] at h
      cases h
      simpa using hx

theorem jsTrimL_idem (l : List Char) : jsTrimL (jsTrimL l) = jsTrimL l := by
  set m := l.dropWhile wsChar with hm
  set r := ((m.reverse).dropWhile wsChar).reverse with hrdef
  have hjl : jsTrimL l = r := rfl
  have hpre : ∃ v, m = r ++ v := by
    refine ⟨((m.reverse).takeWhile wsChar).reverse, ?_⟩
    have h := List.takeWhile_append_dropWhile (p := wsChar) (l := m.reverse)
    have h2 := congrArg List.reverse h
    rw [List.reverse_append] at h2
    simpa [hrdef] using h2.symm
  have hDr : r.dropWhile wsChar = r := by
    cases hc : r with
    | nil => simp
    | cons a t =>
      obtain ⟨v, hv⟩ := hpre
      have hmc : m = a :: (t ++ v) := by rw [hv, hc]; simp
      have ha : wsChar a = false := dropWhile_head_false wsChar (hm ▸ hmc)
      rw [List.dropWhile_cons, if_neg (by simp [ha])]
  show ((((jsTrimL l).dropWhile wsChar).reverse).dropWhile wsChar).reverse = jsTrimL l
  rw [hjl, hDr, hrdef]
  rw [List.reverse_reverse, dropWhile_dropWhile]

theorem jsTrim_idem (s : String) : jsTrim (jsTrim s) = jsTrim s := by
  unfold jsTrim
  exact congrArg String.mk (jsTrimL_idem s.data)

theorem jsTrim_empty : jsTrim "" = "" := rfl

/-! ## Chat log (src/unnamed/part_007, current module: lines 1-233)

Files are keyed by workspace-relative path segments (mirroring `path.join`);
`none` means the file does not exist (`existsSync` false).  One stored
`ChatRec` corresponds to one JSON line.  -/

/-- One JSON line of a chat-log file: `JSON.stringify({ts, jid, user, assistant})`.
Group-chat lines carry no `jid` field; they are modelled with `jid = none`. -/
structure ChatRec where
  ts : Int
  jid : Option String
  user : String
  assistant : String
  deriving DecidableEq

/-- A workspace-relative path, one segment per `path.join` argument piece. -/
abbrev RelPath := List String

/-- The workspace file system: path → lines, `none` when the file is absent. -/
def WorkspaceFS := RelPath → Option (List ChatRec)

/-- Append one line to a file, creating it when absent (`appendFileSync`). -/
def fsAppend (fs : WorkspaceFS) (p : RelPath) (r : ChatRec) : WorkspaceFS :=
  fun q => if q = p then some (((fs p).getD []) ++ [r]) else fs q

/-- Character class `[0-9a-zA-Z._-]` of `safeJidForFile`. -/
def safeJidChar (c : Char) : Bool :=
  c.isAlphanum || c = '.' || c = '_' || c = '-'

/-- Embeds `safeJidForFile` (part_007 lines 21-24): trim, replace characters
outside `[0-9a-zA-Z._-]` by `_`, with `unknown` for null/blank jids. -/
def safeJidForFile (jid : Option String) : String :=
  match jid with
  | none => "unknown"
  | some s =>
    if jsTrim s = "" then "unknown"
    else
      let r : String := ⟨(jsTrim s).data.map (fun c => if safeJidChar c then c else '_')⟩
      if r = "" then "unknown" else r

/-- One user/assistant exchange as passed to `appendExchange`. -/
structure Exchange where
  user : String
  assistant : String
  timestampMs : Int
  jid : Option String

/-- A message in LLM order as returned by the read functions. -/
structure Msg where
  role : String
  content : String
  deriving DecidableEq

/-- Embeds `appendExchange` (part_007 lines 32-69).  `dateStr` stands for the
locale-dependent `YYYY-MM-DD` string the code formats from `timestampMs`.
Returns the new file system, the relative path, and the 1-based line number. -/
def appendExchange (workspaceDir : String) (fs : WorkspaceFS) (ex : Exchange)
    (dateStr : String) : Except String (WorkspaceFS × RelPath × Nat) :=
  if workspaceDir = "" then .error "workspaceDir is required"
  else
    let line : ChatRec :=
      { ts := ex.timestampMs, jid := ex.jid
        user := jsTrim ex.user, assistant := jsTrim ex.assistant }
    match ex.jid with
    | some j =>
      if jsTrim j ≠ "" then
        let p : RelPath := ["chat-log", "private", safeJidForFile ex.jid ++ ".jsonl"]
        let fs1 := fsAppend fs p line
        .ok (fs1, p, ((fs p).getD []).length + 1)
      else
        let p : RelPath := ["chat-log", dateStr ++ ".jsonl"]
        let fs1 := fsAppend fs p line
        .ok (fs1, p, ((fs p).getD []).length + 1)
    | none =>
      let p : RelPath := ["chat-log", dateStr ++ ".jsonl"]
      let fs1 := fsAppend fs p line
      .ok (fs1, p, ((fs p).getD []).length + 1)

/-- Embeds `appendGroupExchange` (part_007 lines 81-107): one line under
`group-chat-log/<safe(groupId)>/YYYY-MM-DD.jsonl`. -/
def appendGroupExchange (workspaceDir : String) (fs : WorkspaceFS)
    (groupJid : String) (ex : Exchange) (dateStr : String) :
    Except String (WorkspaceFS × RelPath × Nat) :=
  if workspaceDir = "" then .error "workspaceDir is required"
  else
    let safeRaw : String := ⟨(jsTrim groupJid).data.map
      (fun c => if c.isDigit || c = '-' then c else '_')⟩
    let safeId := if safeRaw = "" then "group" else safeRaw
    let p : RelPath := ["group-chat-log", safeId, dateStr ++ ".jsonl"]
    let line : ChatRec :=
      { ts := ex.timestampMs, jid := none
        user := jsTrim ex.user, assistant := jsTrim ex.assistant }
    let fs1 := fsAppend fs p line
    .ok (fs1, p, ((fs p).getD []).length + 1)

/-- Model of the JS fallback `x || "(no text)"` on a trimmed string. -/
def orNoText (s : String) : String := if s = "" then "(no text)" else s

/-- The read loop of part_007 lines 176-184: each stored line becomes a
user message followed by an assistant message. -/
def msgsOf : List ChatRec → List Msg
  | [] => []
  | r :: rs =>
    ⟨"user", orNoText (jsTrim r.user)⟩ :: ⟨"assistant", orNoText (jsTrim r.assistant)⟩ :: msgsOf rs

/-- Embeds `readLastPrivateExchanges` (part_007 lines 165-233), per-jid branch.
When the per-jid file is absent the code falls back to scanning the per-day
aggregate directory; that directory walk is not modelled and yields `none`. -/
def readLastPrivateExchanges (workspaceDir : String) (fs : WorkspaceFS)
    (jid : Option String) (maxExchanges : Nat) : Option (List Msg) :=
  if workspaceDir = "" then some []
  else
    let n := max 1 (if maxExchanges = 0 then 5 else maxExchanges)
    let p : RelPath := ["chat-log", "private", safeJidForFile jid ++ ".jsonl"]
    match fs p with
    | none => none
    | some lines =>
      let lastLines := lines.drop (lines.length - n)
      some (msgsOf lastLines)

theorem msgsOf_append (a b : List ChatRec) :
    msgsOf (a ++ b) = msgsOf a ++ msgsOf b := by
  induction a with
  | nil => rfl
  | cons r rs ih => simp [msgsOf, ih]

/-- C3: appending an exchange with a non-blank jid and non-blank user and
assistant texts, then reading the last n ≥ 1 private exchanges for that jid,
returns the appended exchange as the most recent pair: the returned list ends
with the user message followed by the assistant message, contents
whitespace-trimmed. -/
theorem claim_C3_chatlog_round_trip
    (ws : String) (fs : WorkspaceFS) (ex : Exchange) (d : String) (n : Nat)
    (j : String)
    (hws : ws ≠ "") (hjid : ex.jid = some j) (hj : jsTrim j ≠ "")
    (hu : jsTrim ex.user ≠ "") (ha : jsTrim ex.assistant ≠ "") (hn : 1 ≤ n) :
    ∃ fs1 ln pre,
      appendExchange ws fs ex d =
        .ok (fs1, ["chat-log", "private", safeJidForFile ex.jid ++ ".jsonl"], ln) ∧
      readLastPrivateExchanges ws fs1 ex.jid n =
        some (pre ++ [⟨"user", jsTrim ex.user⟩, ⟨"assistant", jsTrim ex.assistant⟩]) := by
  obtain ⟨u, a2, t, jd⟩ := ex
  simp only at hjid hu ha ⊢
  subst hjid
  set p : RelPath := ["chat-log", "private", safeJidForFile (some j) ++ ".jsonl"] with hp
  set line : ChatRec :=
    { ts := t, jid := some j, user := jsTrim u, assistant := jsTrim a2 } with hline
  set old : List ChatRec := (fs p).getD [] with hold
  refine ⟨fsAppend fs p line, old.length + 1, msgsOf (old.drop (old.length + 1 - n)), ?_, ?_⟩
  · simp only [appendExchange, if_neg hws, if_pos hj]
  · have hfs1 : fsAppend fs p line p = some (old ++ [line]) := by
      simp [fsAppend]
    simp only [readLastPrivateExchanges, if_neg hws, hfs1]
    have hn0 : (if n = 0 then 5 else n) = n := by
      rw [if_neg (by omega)]
    rw [hn0, Nat.max_eq_right hn]
    have hlen : (old ++ [line]).length = old.length + 1 := by simp
    rw [hlen]
    have hk : old.length + 1 - n ≤ old.length := by omega
    rw [List.drop_append_of_le_length hk, msgsOf_append]
    have hu2 : orNoText (jsTrim line.user) = jsTrim u := by
      rw [hline]
      show orNoText (jsTrim (jsTrim u)) = jsTrim u
      rw [jsTrim_idem, orNoText, if_neg hu]
    have ha2 : orNoText (jsTrim line.assistant) = jsTrim a2 := by
      rw [hline]
      show orNoText (jsTrim (jsTrim a2)) = jsTrim a2
      rw [jsTrim_idem, orNoText, if_neg ha]
    simp [msgsOf, hu2, ha2]

/-- C3 witness: concrete instantiation of the round trip. -/
theorem claim_C3_witness :
    ∃ fs1 ln pre,
      appendExchange "w" (fun _ => none)
          { user := " hi ", assistant := "yo", timestampMs := 5, jid := some "123" }
          "2025-02-16" =
        .ok (fs1, ["chat-log", "private", safeJidForFile (some "123") ++ ".jsonl"], ln) ∧
      readLastPrivateExchanges "w" fs1 (some "123") 1 =
        some (pre ++ [⟨"user", jsTrim " hi "⟩, ⟨"assistant", jsTrim "yo"⟩]) :=
  claim_C3_chatlog_round_trip "w" (fun _ => none)
    { user := " hi ", assistant := "yo", timestampMs := 5, jid := some "123" }
    "2025-02-16" 1 "123"
    (by decide) rfl (by decide) (by decide) (by decide) (by decide)

/-- C8: a group exchange appends exactly one line under
`group-chat-log/<safe(groupId)>/<date>.jsonl` and leaves every path under
`chat-log/` (private files and per-day aggregates alike) untouched. -/
theorem claim_C8_group_isolation
    (ws : String) (fs : WorkspaceFS) (g : String) (ex : Exchange) (d : String)
    (hws : ws ≠ "") :
    ∃ fs1 ln safeId,
      appendGroupExchange ws fs g ex d =
        .ok (fs1, ["group-chat-log", safeId, d ++ ".jsonl"], ln) ∧
      fs1 ["group-chat-log", safeId, d ++ ".jsonl"] =
        some (((fs ["group-chat-log", safeId, d ++ ".jsonl"]).getD []) ++
          [{ ts := ex.timestampMs, jid := none
             user := jsTrim ex.user, assistant := jsTrim ex.assistant }]) ∧
      (∀ q : RelPath, q.head? = some "chat-log" → fs1 q = fs q) := by
  set safeRaw : String := ⟨(jsTrim g).data.map
    (fun c => if c.isDigit || c = '-' then c else '_')⟩ with hraw
  set safeId := if safeRaw = "" then "group" else safeRaw with hsafe
  set p : RelPath := ["group-chat-log", safeId, d ++ ".jsonl"] with hp
  set line : ChatRec :=
    { ts := ex.timestampMs, jid := none
      user := jsTrim ex.user, assistant := jsTrim ex.assistant } with hline
  refine ⟨fsAppend fs p line, ((fs p).getD []).length + 1, safeId, ?_, ?_, ?_⟩
  · simp only [appendGroupExchange, if_neg hws]
  · simp [fsAppend]
  · intro q hq
    have hqp : q ≠ p := by
      intro hc
      rw [hc, hp] at hq
      simp at hq
    simp [fsAppend, if_neg hqp]

/-- C8 witness: concrete group append touching only the group path. -/
theorem claim_C8_witness :
    ∃ fs1 ln safeId,
      appendGroupExchange "w" (fun _ => none) "-12345"
          { user := "q", assistant := "a", timestampMs := 3, jid := none }
          "2025-02-16" =
        .ok (fs1, ["group-chat-log", safeId, "2025-02-16" ++ ".jsonl"], ln) ∧
      fs1 ["group-chat-log", safeId, "2025-02-16" ++ ".jsonl"] =
        some ((((fun _ => none : WorkspaceFS)
            ["group-chat-log", safeId, "2025-02-16" ++ ".jsonl"]).getD []) ++
          [{ ts := 3, jid := none, user := jsTrim "q", assistant := jsTrim "a" }]) ∧
      (∀ q : RelPath, q.head? = some "chat-log" →
        fs1 q = (fun _ => none : WorkspaceFS) q) :=
  claim_C8_group_isolation "w" (fun _ => none) "-12345"
    { user := "q", assistant := "a", timestampMs := 3, jid := none }
    "2025-02-16" (by decide)

/-- C10: with a non-blank jid, `appendExchange` appends exactly one line to
the per-jid private file and modifies no other path; in particular every
two-segment `chat-log/<date>.jsonl` aggregate is untouched.  The per-day
aggregate is written only on the no-jid (or blank-jid) path, which in turn
touches no three-segment path (so no private file). -/
theorem claim_C10_private_no_aggregate :
    (∀ (ws : String) (fs : WorkspaceFS) (ex : Exchange) (d : String) (j : String),
      ws ≠ "" → ex.jid = some j → jsTrim j ≠ "" →
      ∃ fs1 ln,
        appendExchange ws fs ex d =
          .ok (fs1, ["chat-log", "private", safeJidForFile ex.jid ++ ".jsonl"], ln) ∧
        fs1 ["chat-log", "private", safeJidForFile ex.jid ++ ".jsonl"] =
          some (((fs ["chat-log", "private", safeJidForFile ex.jid ++ ".jsonl"]).getD []) ++
            [{ ts := ex.timestampMs, jid := ex.jid
               user := jsTrim ex.user, assistant := jsTrim ex.assistant }]) ∧
        (∀ q : RelPath,
          q ≠ ["chat-log", "private", safeJidForFile ex.jid ++ ".jsonl"] → fs1 q = fs q) ∧
        (∀ d' : String, fs1 ["chat-log", d' ++ ".jsonl"] = fs ["chat-log", d' ++ ".jsonl"])) ∧
    (∀ (ws : String) (fs : WorkspaceFS) (ex : Exchange) (d : String),
      ws ≠ "" → (ex.jid = none ∨ ∃ j, ex.jid = some j ∧ jsTrim j = "") →
      ∃ fs1 ln,
        appendExchange ws fs ex d = .ok (fs1, ["chat-log", d ++ ".jsonl"], ln) ∧
        (∀ q : RelPath, q.length = 3 → fs1 q = fs q)) := by
  constructor
  · intro ws fs ex d j hws hjid hj
    obtain ⟨u, a2, t, jd⟩ := ex
    simp only at hjid ⊢
    subst hjid
    set p : RelPath := ["chat-log", "private", safeJidForFile (some j) ++ ".jsonl"] with hp
    set line : ChatRec :=
      { ts := t, jid := some j, user := jsTrim u, assistant := jsTrim a2 } with hline
    refine ⟨fsAppend fs p line, ((fs p).getD []).length + 1, ?_, ?_, ?_, ?_⟩
    · simp only [appendExchange, if_neg hws, if_pos hj]
    · simp [fsAppend]
    · intro q hq
      simp [fsAppend, if_neg hq]
    · intro d'
      have hne : (["chat-log", d' ++ ".jsonl"] : RelPath) ≠ p := by
        rw [hp]
        intro hc
        have := congrArg List.length hc
        simp at this
      simp [fsAppend, if_neg hne]
  · intro ws fs ex d hws hcase
    obtain ⟨u, a2, t, jd⟩ := ex
    simp only at hcase ⊢
    set p : RelPath := ["chat-log", d ++ ".jsonl"] with hp
    have hframe : ∀ (line : ChatRec) (q : RelPath),
        q.length = 3 → fsAppend fs p line q = fs q := by
      intro line q hq
      have hne : q ≠ p := by
        rw [hp]
        intro hc
        rw [hc] at hq
        simp at hq
      simp [fsAppend, if_neg hne]
    rcases hcase with hnone | ⟨j, hsome, hblank⟩
    · subst hnone
      exact ⟨fsAppend fs p { ts := t, jid := none, user := jsTrim u, assistant := jsTrim a2 },
        ((fs p).getD []).length + 1,
        by simp only [appendExchange, if_neg hws], hframe _⟩
    · subst hsome
      refine ⟨fsAppend fs p { ts := t, jid := some j, user := jsTrim u, assistant := jsTrim a2 },
        ((fs p).getD []).length + 1, ?_, hframe _⟩
      simp only [appendExchange, if_neg hws]
      rw [if_neg (by simp [hblank])]

/-- C10 witness: a jid-carrying append leaving aggregates alone, and a
jid-less append leaving private files alone. -/
theorem claim_C10_witness :
    (∃ fs1 ln,
      appendExchange "w" (fun _ => none)
          { user := "u", assistant := "a", timestampMs := 7, jid := some "55" } "2025-01-01" =
        .ok (fs1, ["chat-log", "private", safeJidForFile (some "55") ++ ".jsonl"], ln) ∧
      fs1 ["chat-log", "private", safeJidForFile (some "55") ++ ".jsonl"] =
        some ((((fun _ => none : WorkspaceFS)
            ["chat-log", "private", safeJidForFile (some "55") ++ ".jsonl"]).getD []) ++
          [{ ts := 7, jid := some "55", user := jsTrim "u", assistant := jsTrim "a" }]) ∧
      (∀ q : RelPath,
        q ≠ ["chat-log", "private", safeJidForFile (some "55") ++ ".jsonl"] →
          fs1 q = (fun _ => none : WorkspaceFS) q) ∧
      (∀ d' : String, fs1 ["chat-log", d' ++ ".jsonl"] =
        (fun _ => none : WorkspaceFS) ["chat-log", d' ++ ".jsonl"])) ∧
    (∃ fs1 ln,
      appendExchange "w" (fun _ => none)
          { user := "u", assistant := "a", timestampMs := 7, jid := none } "2025-01-01" =
        .ok (fs1, ["chat-log", "2025-01-01" ++ ".jsonl"], ln) ∧
      (∀ q : RelPath, q.length = 3 → fs1 q = (fun _ => none : WorkspaceFS) q)) :=
  ⟨claim_C10_private_no_aggregate.1 "w" (fun _ => none)
      { user := "u", assistant := "a", timestampMs := 7, jid := some "55" }
      "2025-01-01" "55" (by decide) rfl (by decide),
   claim_C10_private_no_aggregate.2 "w" (fun _ => none)
      { user := "u", assistant := "a", timestampMs := 7, jid := none }
      "2025-01-01" (by decide) (Or.inl rfl)⟩

/-! ## Tide inactive window (src/unnamed/part_009, lines 105-133)

The current wall-clock time in the resolved timezone is environment input;
it enters the model as `currentMins`, the minutes-since-midnight value the
code computes from the `Intl` formatter parts. -/

/-- Numeric value of a decimal digit character. -/
def digitVal (c : Char) : Nat := c.toNat - '0'.toNat

/-- Embeds the local `parse` helper of `isInTideInactiveWindow`: match
the trimmed string against `^(\d{1,2}):(\d{2})$` and return minutes. -/
def parseHHMM (s : String) : Option Nat :=
  match (jsTrim s).data with
  | [h1, c, m1, m2] =>
    if c = ':' && h1.isDigit && m1.isDigit && m2.isDigit then
      some (digitVal h1 * 60 + (digitVal m1 * 10 + digitVal m2))
    else none
  | [h1, h2, c, m1, m2] =>
    if c = ':' && h1.isDigit && h2.isDigit && m1.isDigit && m2.isDigit then
      some ((digitVal h1 * 10 + digitVal h2) * 60 + (digitVal m1 * 10 + digitVal m2))
    else none
  | _ => none

/-- Embeds `isInTideInactiveWindow` (part_009 lines 105-133). -/
def isInTideInactiveWindow (inactiveStart inactiveEnd : String)
    (currentMins : Nat) : Bool :=
  if inactiveStart = "" || inactiveEnd = "" then false
  else
    match parseHHMM inactiveStart, parseHHMM inactiveEnd with
    | some startMins, some endMins =>
      if endMins > startMins then
        decide (startMins ≤ currentMins) && decide (currentMins < endMins)
      else
        decide (startMins ≤ currentMins) || decide (currentMins < endMins)
    | _, _ => false

/-- The window membership the spec claims, written from the spec words: the
closed interval `[inactiveStart, inactiveEnd]`, wrapping midnight when
`end < start`.  Used only to compare the claim against the code. -/
def specClosedWindow (startMins endMins currentMins : Nat) : Bool :=
  if endMins < startMins then
    decide (startMins ≤ currentMins) || decide (currentMins ≤ endMins)
  else
    decide (startMins ≤ currentMins) && decide (currentMins ≤ endMins)

/-- Modelled from the spec: the Tide scheduler (`cron/run-tide.js`, not under
src/) skips the wake entirely — emitting zero messages — whenever
`isInTideInactiveWindow` returns true; otherwise it may emit one nudge when
the chat has been silent. -/
def tideWakeEmits (inactiveStart inactiveEnd : String) (currentMins : Nat)
    (silentLongEnough : Bool) : Nat :=
  if isInTideInactiveWindow inactiveStart inactiveEnd currentMins then 0
  else if silentLongEnough then 1 else 0

/-- C5 counterexample: with the window `01:00`-`02:00` and the current time
exactly `02:00` (120 minutes), the claimed closed interval contains the
instant but the code returns false: the code interval is half-open at the
end, so the claim as stated is false. -/
theorem claim_C5_counterexample :
    specClosedWindow 60 120 120 = true ∧
    isInTideInactiveWindow "01:00" "02:00" 120 = false := by
  constructor
  · rfl
  · rfl

/-- C5 (amended): for valid `HH:mm` inputs, `isInTideInactiveWindow` returns
true exactly when the current time lies in the half-open interval
`[inactiveStart, inactiveEnd)`, the window wrapping midnight when
`inactiveEnd ≤ inactiveStart`; and whenever it returns true the Tide wake
emits zero messages regardless of silence. -/
theorem claim_C5_tide_window
    (s e : String) (cur sm em : Nat)
    (hs : parseHHMM s = some sm) (he : parseHHMM e = some em) :
    (isInTideInactiveWindow s e cur = true ↔
      (if sm < em then sm ≤ cur ∧ cur < em else (sm ≤ cur ∨ cur < em))) ∧
    (∀ silent : Bool, isInTideInactiveWindow s e cur = true →
      tideWakeEmits s e cur silent = 0) := by
  have hsne : s ≠ "" := by
    intro hc
    rw [hc] at hs
    simp [parseHHMM, jsTrim, jsTrimL] at hs
  have hene : e ≠ "" := by
    intro hc
    rw [hc] at he
    simp [parseHHMM, jsTrim, jsTrimL] at he
  constructor
  · unfold isInTideInactiveWindow
    rw [if_neg (by simp [hsne, hene]), hs, he]
    show (if em > sm then decide (sm ≤ cur) && decide (cur < em)
          else decide (sm ≤ cur) || decide (cur < em)) = true ↔ _
    by_cases hlt : sm < em
    · rw [if_pos (show em > sm from hlt), if_pos hlt]
      simp
    · rw [if_neg (show ¬em > sm from hlt), if_neg hlt]
      simp
  · intro silent hw
    unfold tideWakeEmits
    rw [hw]
    rfl

/-- C5 witness: inside an overnight window (23:00-06:00 at 00:30). -/
theorem claim_C5_witness :
    (isInTideInactiveWindow "23:00" "06:00" 30 = true ↔
      (if 1380 < 360 then 1380 ≤ 30 ∧ 30 < 360 else (1380 ≤ 30 ∨ 30 < 360))) ∧
    (∀ silent : Bool, isInTideInactiveWindow "23:00" "06:00" 30 = true →
      tideWakeEmits "23:00" "06:00" 30 silent = 0) :=
  claim_C5_tide_window "23:00" "06:00" 30 1380 360 (by rfl) (by rfl)

/-! ## Memory configuration (src/lib/memory-config.js = src/unnamed/part_010)

Config documents come from JSON, so numeric fields are rationals or absent.
`jsNumOr o d` embeds the JS idiom `Number(x) || d`: an absent value gives
`NaN` (falsy) and a present `0` is falsy too, so both fall back to `d`. -/

/-- Raw `memory.chunking` object: optional numeric fields. -/
structure ChunkingRaw where
  tokens : Option ℚ
  overlap : Option ℚ

/-- The slice of the configuration document `getMemoryConfig` reads. -/
structure MemoryRawConfig where
  skillsEnabled : List String
  memoryEnabled : Option Bool
  chunking : ChunkingRaw
  searchMaxResults : Option ℚ
  searchMinScore : Option ℚ

/-- Embeds `Number(x) || d` for a JSON-sourced numeric field. -/
def jsNumOr (o : Option ℚ) (d : ℚ) : ℚ :=
  match o with
  | none => d
  | some q => if q = 0 then d else q

/-- Resolved memory config (the fields the claims touch). -/
structure MemoryConfig where
  chunkingTokens : ℚ
  chunkingOverlap : ℚ
  maxResults : ℚ
  minScore : ℚ
  deriving DecidableEq

/-- Embeds `getMemoryConfig` (memory-config.js lines 83-141): gating on
`skills.enabled` and `memory.enabled`, then the clamped chunking and search
numbers.  Embedding/provider resolution is not needed by any claim. -/
def getMemoryConfig (c : MemoryRawConfig) : Option MemoryConfig :=
  if !(c.skillsEnabled.contains "memory") then none
  else if c.memoryEnabled = some false then none
  else some
    { chunkingTokens := max 100 (min 2000 (jsNumOr c.chunking.tokens 512))
      chunkingOverlap := max 0 (min 100 (jsNumOr c.chunking.overlap 32))
      maxResults := max 1 (min 20 (jsNumOr c.searchMaxResults 6))
      minScore := jsNumOr c.searchMinScore 0 }

/-- The chunking the spec claims, written from the spec words: configured
value clamped into the band, defaults only when unset.  Used only to compare
the claim against the code. -/
def specClaimedTokens (o : Option ℚ) : ℚ :=
  match o with
  | none => 512
  | some q => max 100 (min 2000 q)

/-- Spec-claimed overlap clamping (see `specClaimedTokens`). -/
def specClaimedOverlap (o : Option ℚ) : ℚ :=
  match o with
  | none => 32
  | some q => max 0 (min 100 q)

/-- C9 counterexample: with configured `chunking.tokens = 0` and
`chunking.overlap = 0` the claim predicts `(100, 0)` (clamping), but the
code returns `(512, 32)`: `Number(x) || default` treats a configured `0`
as unset, so overlap 0 — inside the claimed 0-100 band — is not returned
unchanged. -/
theorem claim_C9_counterexample :
    getMemoryConfig
        { skillsEnabled := ["memory"], memoryEnabled := none
          chunking := { tokens := some 0, overlap := some 0 }
          searchMaxResults := none, searchMinScore := none } =
      some { chunkingTokens := 512, chunkingOverlap := 32
             maxResults := 6, minScore := 0 } ∧
    specClaimedTokens (some 0) = 100 ∧ specClaimedOverlap (some 0) = 0 ∧
    ((512 : ℚ), (32 : ℚ)) ≠ ((100 : ℚ), (0 : ℚ)) := by
  refine ⟨?_, ?_, ?_, by decide⟩
  · rfl
  · rfl
  · rfl

/-- C9 (amended): with memory enabled, `getMemoryConfig` returns
`chunking.tokens` equal to the configured value clamped into [100, 2000]
when that value is a nonzero number and 512 when unset or 0, and
`chunking.overlap` equal to the configured value clamped into [0, 100] when
nonzero and 32 when unset or 0; in particular every configured overlap in
1-100 is returned unchanged. -/
theorem claim_C9_chunking_clamped
    (c : MemoryRawConfig)
    (hen : c.skillsEnabled.contains "memory" = true)
    (hmem : c.memoryEnabled ≠ some false) :
    ∃ m, getMemoryConfig c = some m ∧
      m.chunkingTokens =
        (match c.chunking.tokens with
         | none => 512
         | some q => if q = 0 then 512 else max 100 (min 2000 q)) ∧
      m.chunkingOverlap =
        (match c.chunking.overlap with
         | none => 32
         | some q => if q = 0 then 32 else max 0 (min 100 q)) ∧
      (∀ q : ℚ, c.chunking.overlap = some q → 1 ≤ q → q ≤ 100 →
        m.chunkingOverlap = q) := by
  refine ⟨{ chunkingTokens := max 100 (min 2000 (jsNumOr c.chunking.tokens 512))
            chunkingOverlap := max 0 (min 100 (jsNumOr c.chunking.overlap 32))
            maxResults := max 1 (min 20 (jsNumOr c.searchMaxResults 6))
            minScore := jsNumOr c.searchMinScore 0 }, ?_, ?_, ?_, ?_⟩
  · unfold getMemoryConfig
    rw [if_neg (by rw [hen]; simp), if_neg (by simp [hmem])]
  · show max 100 (min 2000 (jsNumOr c.chunking.tokens 512)) = _
    rcases c.chunking.tokens with _ | q
    · rfl
    · simp only [jsNumOr]
      by_cases h0 : q = 0
      · rw [if_pos h0, if_pos h0]
        rfl
      · rw [if_neg h0, if_neg h0]
  · show max 0 (min 100 (jsNumOr c.chunking.overlap 32)) = _
    rcases c.chunking.overlap with _ | q
    · rfl
    · simp only [jsNumOr]
      by_cases h0 : q = 0
      · rw [if_pos h0, if_pos h0]
        rfl
      · rw [if_neg h0, if_neg h0]
  · intro q hq h1 h100
    show max 0 (min 100 (jsNumOr c.chunking.overlap 32)) = q
    rw [hq]
    simp only [jsNumOr]
    rw [if_neg (by intro hc; rw [hc] at h1; norm_num at h1)]
    rw [min_eq_right h100, max_eq_right (by linarith)]

/-- C9 witness: overlap 50 comes back unchanged; tokens 50 clamps to 100. -/
theorem claim_C9_witness :
    ∃ m, getMemoryConfig
        { skillsEnabled := ["memory"], memoryEnabled := none
          chunking := { tokens := some 50, overlap := some 50 }
          searchMaxResults := none, searchMinScore := none } = some m ∧
      m.chunkingTokens =
        (match (some (50 : ℚ) : Option ℚ) with
         | none => 512
         | some q => if q = 0 then 512 else max 100 (min 2000 q)) ∧
      m.chunkingOverlap =
        (match (some (50 : ℚ) : Option ℚ) with
         | none => 32
         | some q => if q = 0 then 32 else max 0 (min 100 q)) ∧
      (∀ q : ℚ, (some (50 : ℚ) : Option ℚ) = some q → 1 ≤ q → q ≤ 100 →
        m.chunkingOverlap = q) :=
  claim_C9_chunking_clamped
    { skillsEnabled := ["memory"], memoryEnabled := none
      chunking := { tokens := some 50, overlap := some 50 }
      searchMaxResults := none, searchMinScore := none }
    (by decide) (by simp)

/-! ## Memory skill, memory_search tool (src/skills/memory.js lines 52-89)

JS numbers that can be `NaN` are modelled by `JSNum`.  `Number(undefined)`
is `NaN`, which is not nullish, so `Number(args.minScore) ?? default` never
falls back; and every `>=` comparison against `NaN` is false. -/

/-- A JS number: either `NaN` or an actual rational value. -/
inductive JSNum where
  | nan : JSNum
  | num (q : ℚ) : JSNum
  deriving DecidableEq

/-- Embeds `Number(x)` on an optional JSON number: absent gives `NaN`. -/
def jsNumberOf (o : Option ℚ) : JSNum :=
  match o with
  | none => .nan
  | some q => .num q

/-- Embeds `x ?? d` where `x` is a JS number: a number — `NaN` included —
is never null/undefined, so the left side always wins. -/
def jsNullishOr (x : JSNum) (_d : ℚ) : JSNum :=
  match x with
  | .nan => .nan
  | .num q => .num q

/-- Embeds the JS comparison `a >= b` with a possibly-`NaN` right side. -/
def jsGe (a : ℚ) (b : JSNum) : Bool :=
  match b with
  | .nan => false
  | .num q => decide (q ≤ a)

/-- An index search hit as produced by `index.search(query)`. -/
structure ScoredHit where
  path : String
  startLine : Nat
  endLine : Nat
  snippet : String
  score : ℚ
  deriving DecidableEq

/-- A returned result row (score rounded to two decimals). -/
structure OutHit where
  path : String
  startLine : Nat
  endLine : Nat
  snippet : String
  score : ℚ
  deriving DecidableEq

/-- The JSON value `memory_search` returns: an error object or a results
list. -/
inductive MemSearchOut where
  | errOut (msg : String) : MemSearchOut
  | okOut (hits : List OutHit) : MemSearchOut
  deriving DecidableEq

/-- Arguments of a `memory_search` tool call. -/
structure MemSearchArgs where
  query : String
  maxResults : Option ℚ
  minScore : Option ℚ

/-- Embeds `Math.round(score * 100) / 100`; JS `Math.round x = ⌊x + 1/2⌋`. -/
def jsRound2 (q : ℚ) : ℚ := ((⌊q * 100 + 1 / 2⌋ : ℤ) : ℚ) / 100

/-- Embeds `.slice(0, k)` for the already-clamped rational bound `k`. -/
def sliceCount (q : ℚ) : Nat := (⌊q⌋).toNat

/-- Embeds the `memory_search` branch of `memorySkill.execute` (memory.js
lines 66-89).  `results` is what `index.search(query)` resolved to. -/
def memorySearchTool (cfg : MemoryConfig) (args : MemSearchArgs)
    (results : List ScoredHit) : MemSearchOut :=
  let query := jsTrim args.query
  if query = "" then .errOut "query is required."
  else
    let maxResults : ℚ := min 20 (max 1 (jsNumOr args.maxResults cfg.maxResults))
    let minScore : JSNum := jsNullishOr (jsNumberOf args.minScore) cfg.minScore
    let filtered := (results.filter (fun r => jsGe r.score minScore)).take (sliceCount maxResults)
    .okOut (filtered.map (fun r =>
      { path := r.path, startLine := r.startLine, endLine := r.endLine
        snippet := r.snippet, score := jsRound2 r.score }))

/-- C4: with `minScore` omitted, `memory_search` returns no results at all,
even for a hit whose score 0.9 clears the configured default threshold 0
(the tool schema documents `minScore` as "default 0").  The code computes
`Number(undefined) ?? default = NaN` and `score >= NaN` is always false, so
the claimed filtering against the default minScore never happens. -/
theorem claim_C4_minscore_nan_drops_all :
    getMemoryConfig
        { skillsEnabled := ["memory"], memoryEnabled := none
          chunking := { tokens := none, overlap := none }
          searchMaxResults := none, searchMinScore := none } =
      some { chunkingTokens := 512, chunkingOverlap := 32
             maxResults := 6, minScore := 0 } ∧
    jsGe (9 / 10) (.num 0) = true ∧
    memorySearchTool
        { chunkingTokens := 512, chunkingOverlap := 32
          maxResults := 6, minScore := 0 }
        { query := "what does the user prefer?", maxResults := none, minScore := none }
        [{ path := "MEMORY.md", startLine := 1, endLine := 1
           snippet := "User prefers dark mode.", score := 9 / 10 }] =
      .okOut [] := by
  refine ⟨rfl, ?_, ?_⟩
  · rw [jsGe]
    norm_num
  · rfl

/-! ## Skill dispatch and the core shell executor
(src/skills/executor.js lines 49-62, src/lib/executors/write.js lines 46-122)

The spawned child process is environment input: `CoreProc` records whether
it hits the 30 s timeout, raises a spawn error, or closes with an exit code
and accumulated stdout/stderr.  Spawned commands are tracked explicitly so
"no process is spawned" is a provable statement. -/

/-- Model of `x || y` on an optional JS string (empty string is falsy). -/
def jsOrStr (a : Option String) (b : String) : String :=
  match a with
  | none => b
  | some s => if s = "" then b else s

/-- ASCII lower-casing, as `toLowerCase` acts on these command words. -/
def toLowerStr (s : String) : String := ⟨s.data.map Char.toLower⟩

/-- First `n` characters of a string (`String.prototype.slice(0, n)`). -/
def takeChars (s : String) (n : Nat) : String := ⟨s.data.take n⟩

/-- The allow-list of core commands (write.js line 46). -/
def ALLOWED : List String :=
  ["ls", "cd", "pwd", "cat", "less", "cp", "mv", "rm", "touch", "chmod"]

/-- Timeout for a core command in milliseconds (write.js line 47). -/
def TIMEOUT_MS : Nat := 30000

/-- Per-call output cap in characters (write.js line 48). -/
def MAX_OUTPUT_CHARS : Nat := 50000

/-- Embeds `limitOutput` (write.js lines 57-62). -/
def limitOutput (text : String) : String :=
  if text = "" then ""
  else
    let out := jsTrim text
    if out.length ≤ MAX_OUTPUT_CHARS then out
    else takeChars out MAX_OUTPUT_CHARS ++ "\n[... truncated]"

/-- Arguments of a core tool call. -/
structure CoreArgs where
  command : Option String
  action : Option String
  argv : List String
  cwd : Option String

/-- The command word: `(args?.command || args?.action || '')`, trimmed and
lower-cased (write.js line 69). -/
def cmdOf (args : CoreArgs) : String :=
  toLowerStr (jsTrim (jsOrStr args.command (jsOrStr args.action "")))

/-- Behaviour of the spawned child: runs past the 30 s timeout, fails to
spawn, or closes with an exit code and the accumulated stdout/stderr. -/
inductive CoreProc where
  | timesOut : CoreProc
  | errorsWith (msg : String) : CoreProc
  | closes (code : Int) (stdout stderr : String) : CoreProc

/-- The resolved value of `executeCore`: a plain string or a structured
`JSON.stringify` error object. -/
inductive CoreResult where
  | plain (s : String) : CoreResult
  | errObj (error : String) (stdout stderr : Option String) : CoreResult
  deriving DecidableEq

/-- Embeds `executeCore` (write.js lines 68-122).  Returns the resolved
result and the list of commands spawned during the call. -/
def executeCore (args : CoreArgs) (proc : CoreProc) : CoreResult × List String :=
  let cmd := cmdOf args
  if ALLOWED.contains cmd then
    let spawned := [cmd]
    match proc with
    | .timesOut => (.errObj "Command timed out after 30s." none none, spawned)
    | .errorsWith m => (.errObj m none none, spawned)
    | .closes code out err =>
      let o := limitOutput out
      let e := limitOutput err
      if code = 0 then
        (.plain (if o ≠ "" then o else if e ≠ "" then e else "OK"), spawned)
      else
        (.errObj (if e ≠ "" then e else if o ≠ "" then o else "Exit code " ++ toString code)
          (if o ≠ "" then some o else none) (if e ≠ "" then some e else none), spawned)
  else
    (.errObj ("Unknown core command: " ++ cmd ++
      ". Allowed: ls, cd, pwd, cat, less, cp, mv, rm, touch, chmod.") none none, [])

/-- The string or JSON value `executeSkill` returns for a dispatch. -/
inductive SkillOut where
  | errJson (msg : String) : SkillOut
  | fromExecutor (r : CoreResult) : SkillOut
  | delegated (skillId : String) : SkillOut
  deriving DecidableEq

/-- Embeds `executeSkill` (executor.js lines 49-62) for the paths the claims
exercise: the group-context denial of the core skill, and dispatch to
`executeCore`.  Dispatch to the other thirteen executors is abstracted as
`delegated`. -/
def executeSkill (skillId : String) (isGroup : Bool) (args : CoreArgs)
    (proc : CoreProc) : SkillOut × List String :=
  if skillId = "core" && isGroup then
    (.errJson "The core skill is not available in group chats.", [])
  else if skillId = "core" then
    let (r, sp) := executeCore args proc
    (.fromExecutor r, sp)
  else (.delegated skillId, [])

/-- C6: in a group context the core skill is denied with an error JSON and
no process is spawned; a command outside the allow-list is rejected with an
error result and no spawn; the timeout is 30 000 ms and a command still
running at the timeout resolves to the timeout error; and the captured
stdout/stderr carried into the result is capped at 50 000 characters. -/
theorem claim_C6_core_guardrails :
    (∀ (args : CoreArgs) (proc : CoreProc),
      executeSkill "core" true args proc =
        (.errJson "The core skill is not available in group chats.", [])) ∧
    (∀ (args : CoreArgs) (proc : CoreProc),
      ALLOWED.contains (cmdOf args) = false →
      executeCore args proc =
        (.errObj ("Unknown core command: " ++ cmdOf args ++
          ". Allowed: ls, cd, pwd, cat, less, cp, mv, rm, touch, chmod.") none none, [])) ∧
    TIMEOUT_MS = 30000 ∧
    (∀ args : CoreArgs, ALLOWED.contains (cmdOf args) = true →
      (executeCore args .timesOut).1 = .errObj "Command timed out after 30s." none none) ∧
    (∀ t : String,
      (limitOutput t = jsTrim t ∧ (jsTrim t).length ≤ MAX_OUTPUT_CHARS) ∨
      (limitOutput t = takeChars (jsTrim t) MAX_OUTPUT_CHARS ++ "\n[... truncated]" ∧
        (takeChars (jsTrim t) MAX_OUTPUT_CHARS).length ≤ MAX_OUTPUT_CHARS)) := by
  refine ⟨?_, ?_, rfl, ?_, ?_⟩
  · intro args proc
    rfl
  · intro args proc h
    simp only [executeCore]
    rw [h]
    rfl
  · intro args h
    simp only [executeCore]
    rw [h]
    rfl
  · intro t
    by_cases h0 : t = ""
    · left
      rw [h0]
      exact ⟨rfl, by rw [jsTrim_empty]; exact Nat.zero_le _⟩
    · by_cases hlen : (jsTrim t).length ≤ MAX_OUTPUT_CHARS
      · left
        exact ⟨by rw [limitOutput, if_neg h0, if_pos hlen], hlen⟩
      · right
        refine ⟨by rw [limitOutput, if_neg h0, if_neg hlen], ?_⟩
        show ((jsTrim t).data.take MAX_OUTPUT_CHARS).length ≤ MAX_OUTPUT_CHARS
        rw [List.length_take]
        exact min_le_left _ _

/-- C6 witness: group denial for `ls`, rejection of `curl`, timeout result
for `ls`, and the cap on a short output. -/
theorem claim_C6_witness :
    executeSkill "core" true { command := some "ls", action := none, argv := [], cwd := none }
        .timesOut =
      (.errJson "The core skill is not available in group chats.", []) ∧
    executeCore { command := some "curl", action := none, argv := [], cwd := none }
        (.closes 0 "x" "") =
      (.errObj ("Unknown core command: " ++
        cmdOf { command := some "curl", action := none, argv := [], cwd := none } ++
        ". Allowed: ls, cd, pwd, cat, less, cp, mv, rm, touch, chmod.") none none, []) ∧
    (executeCore { command := some "ls", action := none, argv := [], cwd := none }
        .timesOut).1 = .errObj "Command timed out after 30s." none none ∧
    ((limitOutput "hi" = jsTrim "hi" ∧ (jsTrim "hi").length ≤ MAX_OUTPUT_CHARS) ∨
      (limitOutput "hi" = takeChars (jsTrim "hi") MAX_OUTPUT_CHARS ++ "\n[... truncated]" ∧
        (takeChars (jsTrim "hi") MAX_OUTPUT_CHARS).length ≤ MAX_OUTPUT_CHARS)) :=
  ⟨claim_C6_core_guardrails.1 _ _,
   claim_C6_core_guardrails.2.1 _ _ (by decide),
   claim_C6_core_guardrails.2.2.2.1 _ (by decide),
   claim_C6_core_guardrails.2.2.2.2 "hi"⟩

/-! ## Cron runner (src/cron/runner.js)

The cron store module (`src/cron/store.js`) is not under src/; its
operations are modelled from the spec (section 4.4 Store): `loadJobs`
returns the persisted job list, `updateJob(id, {sentAtMs})` patches the job
with that id, `removeJob(id)` deletes it, all persisted synchronously.

The agent run inside `runJobOnce` and the transport send are environment
input: each attempt either succeeds (optionally sending one non-empty text)
or raises an error with a message. -/

/-- A job schedule: `kind` is `at` (one-shot, with `at` in epoch ms) or
`cron` (recurring, with `expr`/`tz`).  The ISO `at` string is modelled by
its parsed epoch value. -/
structure Schedule where
  kind : String
  «at» : Option Int
  expr : Option String
  tz : Option String
  deriving DecidableEq

/-- A stored cron job (store shape per spec section 3 CronJob). -/
structure CronJob where
  id : String
  name : String
  enabled : Bool
  schedule : Option Schedule
  message : String
  jid : Option String
  sentAtMs : Option Int
  deriving DecidableEq

/-- Retry constants (runner.js lines 37-38). -/
def MAX_RETRIES : Nat := 2

/-- Backoff delays in ms for retry 1 and retry 2 (runner.js line 38). -/
def RETRY_DELAYS_MS : List Nat := [5000, 15000]

/-- Outcome of one `runJobOnce` attempt: success (with the sent text, when
the agent reply was non-empty) or a raised error. -/
inductive AttemptOutcome where
  | ok (sentText : Option String) : AttemptOutcome
  | fail (err : String) : AttemptOutcome

/-- Observable trace of the retry loop of `runJob`. -/
structure RetryResult where
  sleeps : List Nat
  sends : List String
  attemptsMade : Nat
  finalErr : Option String
  deriving DecidableEq

/-- The `for attempt in 0..=MAX_RETRIES` loop of `runJob` (runner.js lines
98-113), fuelled by the remaining permitted attempts. -/
def runRetryLoop (outcomes : Nat → AttemptOutcome) :
    Nat → Nat → RetryResult
  | _, 0 => { sleeps := [], sends := [], attemptsMade := 0, finalErr := none }
  | attempt, fuel + 1 =>
    match outcomes attempt with
    | .ok t =>
      { sleeps := [], sends := t.toList, attemptsMade := 1, finalErr := none }
    | .fail e =>
      if attempt < MAX_RETRIES then
        let rest := runRetryLoop outcomes (attempt + 1) fuel
        { sleeps := RETRY_DELAYS_MS.getD attempt 0 :: rest.sleeps
          sends := rest.sends
          attemptsMade := rest.attemptsMade + 1
          finalErr := rest.finalErr }
      else
        { sleeps := [], sends := [], attemptsMade := 1, finalErr := some e }

/-- ASCII apostrophe, written by code point. -/
def apos : String := String.singleton (Char.ofNat 39)

/-- The apology text the code sends (runner.js line 115). -/
def cowcodeApology (name err : String) : String :=
  "[CowCode] Moo — reminder \"" ++ name ++ "\" didn" ++ apos ++
    "t go through: " ++ (if err = "" then "Unknown error" else err)

/-- The apology text the spec claims, written from the spec words.  Used
only to compare the claim against the code. -/
def specApology (name err : String) : String :=
  "[Bot] Moo — reminder " ++ apos ++ name ++ apos ++ " didn" ++ apos ++
    "t go through: " ++ err

/-- Observable trace of one `runJob` call. -/
structure RunTrace where
  sleeps : List Nat
  sends : List String
  attemptsMade : Nat
  deriving DecidableEq

/-- Embeds `runJob` (runner.js lines 90-117): resolve the jid
(`job.jid || selfJid`, bail out when falsy), run up to three attempts with
5 s / 15 s backoff, and after the final failure send the apology, itself
best-effort (`apologyOk` is whether that send succeeds; a failure is
swallowed).  `runJob` is total: it never throws. -/
def runJob (job : CronJob) (selfJid : Option String)
    (outcomes : Nat → AttemptOutcome) (apologyOk : Bool) : RunTrace :=
  let jid := jsOrStr job.jid (jsOrStr selfJid "")
  if jid = "" then { sleeps := [], sends := [], attemptsMade := 0 }
  else
    let r := runRetryLoop outcomes 0 (MAX_RETRIES + 1)
    match r.finalErr with
    | none => { sleeps := r.sleeps, sends := r.sends, attemptsMade := r.attemptsMade }
    | some e =>
      { sleeps := r.sleeps
        sends := r.sends ++ (if apologyOk then [cowcodeApology job.name e] else [])
        attemptsMade := r.attemptsMade }

theorem runRetryLoop_bounds (outcomes : Nat → AttemptOutcome) :
    ∀ (fuel attempt : Nat),
      (runRetryLoop outcomes attempt fuel).attemptsMade ≤ fuel ∧
      (runRetryLoop outcomes attempt fuel).sends.length ≤ 1 ∧
      ((runRetryLoop outcomes attempt fuel).finalErr.isSome →
        (runRetryLoop outcomes attempt fuel).sends = []) := by
  intro fuel
  induction fuel with
  | zero => intro attempt; exact ⟨Nat.le_refl 0, by simp [runRetryLoop], by simp [runRetryLoop]⟩
  | succ f ih =>
    intro attempt
    cases h : outcomes attempt with
    | ok t =>
      refine ⟨?_, ?_, ?_⟩ <;> simp [runRetryLoop, h]
      cases t <;> simp
    | fail e =>
      by_cases hlt : attempt < MAX_RETRIES
      · have := ih (attempt + 1)
        refine ⟨?_, ?_, ?_⟩ <;> simp [runRetryLoop, h, hlt]
        · omega
        · exact this.2.1
        · exact this.2.2
      · refine ⟨?_, ?_, ?_⟩ <;> simp [runRetryLoop, h, hlt]

theorem runJob_sends_le_one (job : CronJob) (selfJid : Option String)
    (outcomes : Nat → AttemptOutcome) (apologyOk : Bool) :
    (runJob job selfJid outcomes apologyOk).sends.length ≤ 1 := by
  unfold runJob
  by_cases hj : jsOrStr job.jid (jsOrStr selfJid "") = ""
  · simp [hj]
  · rw [if_neg hj]
    have hb := runRetryLoop_bounds outcomes (MAX_RETRIES + 1) 0
    cases hfe : (runRetryLoop outcomes 0 (MAX_RETRIES + 1)).finalErr with
    | none => simp only [hfe]; exact hb.2.1
    | some e =>
      simp only [hfe]
      have hempty := hb.2.2 (by rw [hfe]; rfl)
      simp [hempty]
      cases apologyOk <;> simp

/-- C2 counterexample: when every attempt fails with error `boom` for a job
named `n`, the single apology the code sends is the `[CowCode]` text with
the name in double quotes — not the claimed `[Bot] Moo — reminder ...`
form with single quotes, so the claimed message shape is wrong. -/
theorem claim_C2_counterexample :
    (runJob
        { id := "1", name := "n", enabled := true, schedule := none
          message := "m", jid := some "j", sentAtMs := none }
        none (fun _ => .fail "boom") true).sends =
      [cowcodeApology "n" "boom"] ∧
    cowcodeApology "n" "boom" ≠ specApology "n" "boom" := by
  constructor
  · rfl
  · decide

/-- C2 (amended): when running a cron job fails, `runJob` waits 5 s and
retries, on a second failure waits 15 s and retries, making exactly 3
attempts; after the third failure it sends exactly one apology message of
the `[CowCode] Moo` shape with the job name in double quotes (the exact
text is `cowcodeApology`) via the transport, substituting `Unknown error`
for a blank error message; a failure of that
apology send is itself swallowed, and `runJob` never makes more than 3
attempts nor more than one outbound send. -/
theorem claim_C2_retry_policy
    (job : CronJob) (selfJid : Option String)
    (outcomes : Nat → AttemptOutcome) (e0 e1 e2 : String) (apologyOk : Bool)
    (hjid : jsOrStr job.jid (jsOrStr selfJid "") ≠ "")
    (h0 : outcomes 0 = .fail e0) (h1 : outcomes 1 = .fail e1)
    (h2 : outcomes 2 = .fail e2) :
    runJob job selfJid outcomes apologyOk =
      { sleeps := [5000, 15000]
        sends := if apologyOk then [cowcodeApology job.name e2] else []
        attemptsMade := 3 } ∧
    (∀ oc : Nat → AttemptOutcome,
      (runJob job selfJid oc apologyOk).attemptsMade ≤ 3 ∧
      (runJob job selfJid oc apologyOk).sends.length ≤ 1) := by
  constructor
  · have hr : runRetryLoop outcomes 0 (MAX_RETRIES + 1) =
        { sleeps := [5000, 15000], sends := [], attemptsMade := 3, finalErr := some e2 } := by
      show runRetryLoop outcomes 0 3 = _
      simp [runRetryLoop, h0, h1, h2, MAX_RETRIES, RETRY_DELAYS_MS]
    unfold runJob
    rw [if_neg hjid, hr]
    simp
  · intro oc
    constructor
    · unfold runJob
      by_cases hj : jsOrStr job.jid (jsOrStr selfJid "") = ""
      · simp [hj]
      · rw [if_neg hj]
        have hb := (runRetryLoop_bounds oc (MAX_RETRIES + 1) 0).1
        cases hfe : (runRetryLoop oc 0 (MAX_RETRIES + 1)).finalErr <;>
          simp only [hfe] <;> exact hb
    · exact runJob_sends_le_one job selfJid oc apologyOk

/-- C2 witness: a concrete always-failing job. -/
theorem claim_C2_witness :
    runJob
        { id := "1", name := "r", enabled := true, schedule := none
          message := "m", jid := some "j", sentAtMs := none }
        none (fun _ => .fail "e") true =
      { sleeps := [5000, 15000]
        sends := if true then [cowcodeApology "r" "e"] else []
        attemptsMade := 3 } ∧
    (∀ oc : Nat → AttemptOutcome,
      (runJob
          { id := "1", name := "r", enabled := true, schedule := none
            message := "m", jid := some "j", sentAtMs := none }
          none oc true).attemptsMade ≤ 3 ∧
      (runJob
          { id := "1", name := "r", enabled := true, schedule := none
            message := "m", jid := some "j", sentAtMs := none }
          none oc true).sends.length ≤ 1) :=
  claim_C2_retry_policy
    { id := "1", name := "r", enabled := true, schedule := none
      message := "m", jid := some "j", sentAtMs := none }
    none (fun _ => .fail "e") "e" "e" "e" true (by decide) rfl rfl rfl

/-! ## Cron scheduler: one-shot handling and at-most-once delivery

`startCron` (runner.js lines 130-177) and `scheduleOneShot` (lines 184-198)
are embedded over an explicit store state.  The module-level refs
`currentSock`/`currentStorePath` become `RunnerRefs`. -/

/-- Modelled from the spec: `updateJob(id, {sentAtMs})` of the cron store
(`src/cron/store.js`, not under src/) patches the stored job with that id
and persists the whole file. -/
def updateJobSent (store : List CronJob) (id : String) (ts : Int) : List CronJob :=
  store.map (fun j => if j.id = id then { j with sentAtMs := some ts } else j)

/-- Modelled from the spec: `removeJob(id)` of the cron store
(`src/cron/store.js`, not under src/) deletes the stored job with that id. -/
def removeJob (store : List CronJob) (id : String) : List CronJob :=
  store.filter (fun j => j.id ≠ id)

/-- The runner module refs set by `startCron`: whether a usable socket is
wired and the store path. -/
structure RunnerRefs where
  hasSock : Bool
  storePath : Option String

/-- The parsed `job.schedule.at` epoch value, when present. -/
def atMsOf (j : CronJob) : Option Int := j.schedule.bind (·.«at»)

/-- The at-job filter of `startCron` (runner.js line 160):
`j.enabled && j.schedule?.kind === "at" && j.schedule?.at`. -/
def isAtJob (j : CronJob) : Bool :=
  j.enabled &&
    (match j.schedule with
     | some s => s.kind == "at" && s.«at».isSome
     | none => false)

/-- Embeds `scheduleOneShot` (runner.js lines 184-198): returns the delay of
the installed timeout, or `none` when the call is a no-op (wrong kind, no
`at`, no socket or store path, `sentAtMs` already set, or delay ≤ 0). -/
def scheduleOneShot (rs : RunnerRefs) (j : CronJob) (now : Int) : Option Int :=
  match j.schedule with
  | none => none
  | some s =>
    if s.kind = "at" then
      match s.«at» with
      | none => none
      | some atMs =>
        if rs.hasSock && rs.storePath.isSome then
          if j.sentAtMs.isSome then none
          else if atMs - now > 0 then some (atMs - now) else none
        else none
    else none

/-- Result of the one-shot pass of `startCron`: the store after the overdue
marks, the installed timers `(job id, delay)`, and the ids whose `runJob`
is now pending (runner.js line 170 runs them asynchronously). -/
structure StartOut where
  store : List CronJob
  timers : List (String × Int)
  pending : List String

/-- One iteration of the `for (const job of atJobs)` loop
(runner.js lines 161-172). -/
def stepAtJob (rs : RunnerRefs) (now : Int) (acc : StartOut) (j : CronJob) : StartOut :=
  if j.sentAtMs.isSome then acc
  else
    match atMsOf j with
    | none => acc
    | some atMs =>
      if atMs > now then
        match scheduleOneShot rs j now with
        | some d => { acc with timers := acc.timers ++ [(j.id, d)] }
        | none => acc
      else
        { store := updateJobSent acc.store j.id now
          timers := acc.timers
          pending := acc.pending ++ [j.id] }

/-- The loop over the snapshot list of at-jobs. -/
def processAtJobs (rs : RunnerRefs) (now : Int) : List CronJob → StartOut → StartOut
  | [], acc => acc
  | j :: rest, acc => processAtJobs rs now rest (stepAtJob rs now acc j)

/-- Embeds the one-shot part of `startCron` (runner.js lines 160-172): load
the jobs, filter the enabled at-jobs, and process each against the store. -/
def startCronAt (rs : RunnerRefs) (store0 : List CronJob) (now : Int) : StartOut :=
  processAtJobs rs now (store0.filter isAtJob)
    { store := store0, timers := [], pending := [] }

/-- Selection predicate for the overdue branch of the loop: an unsent
at-job whose `at` is due or past. -/
def selOverdue (now : Int) (j : CronJob) : Bool :=
  !j.sentAtMs.isSome &&
    (match atMsOf j with
     | some a => decide (a ≤ now)
     | none => false)

/-- Selection predicate for the future branch that actually installs a
timer (the guards of `scheduleOneShot` included). -/
def selFuture (rs : RunnerRefs) (now : Int) (j : CronJob) : Bool :=
  !j.sentAtMs.isSome &&
    (match atMsOf j with
     | some a => decide (a > now) && (scheduleOneShot rs j now).isSome
     | none => false)

/-- `markedFor store J`: every stored job with id `J` has `sentAtMs` set
(vacuously true when no such job remains). -/
def markedFor (store : List CronJob) (J : String) : Bool :=
  store.all (fun j => !(j.id == J) || j.sentAtMs.isSome)

/-- The store after the overdue marks of one loop pass. -/
def foldStore (now : Int) (l : List CronJob) (st : List CronJob) : List CronJob :=
  l.foldl (fun st j => if selOverdue now j then updateJobSent st j.id now else st) st

theorem updateJobSent_ids (s : List CronJob) (i : String) (ts : Int) :
    (updateJobSent s i ts).map (·.id) = s.map (·.id) := by
  induction s with
  | nil => rfl
  | cons a rest ih =>
    simp only [updateJobSent, List.map_cons] at *
    by_cases h : a.id = i
    · rw [if_pos h]
      simpa [h] using ih
    · rw [if_neg h]
      simpa using ih

theorem markedFor_iff (s : List CronJob) (J : String) :
    markedFor s J = true ↔ ∀ j ∈ s, j.id = J → j.sentAtMs.isSome = true := by
  simp only [markedFor, List.all_eq_true, Bool.or_eq_true, Bool.not_eq_true',
    beq_eq_false_iff_ne, ne_eq]
  constructor
  · intro h j hj hid
    rcases h j hj with h' | h'
    · exact absurd hid h'
    · exact h'
  · intro h j hj
    by_cases hid : j.id = J
    · exact Or.inr (h j hj hid)
    · exact Or.inl hid

theorem updateJobSent_id (i : String) (ts : Int) (j : CronJob) :
    ((if j.id = i then { j with sentAtMs := some ts } else j) : CronJob).id = j.id := by
  split <;> rfl

theorem markedFor_updateJobSent_self (s : List CronJob) (i : String) (ts : Int) :
    markedFor (updateJobSent s i ts) i = true := by
  rw [markedFor_iff]
  intro j hj hid
  obtain ⟨j0, hj0, hfj⟩ := List.mem_map.mp hj
  by_cases h0 : j0.id = i
  · rw [if_pos h0] at hfj
    rw [← hfj]
    rfl
  · rw [if_neg h0] at hfj
    rw [← hfj] at hid
    exact absurd hid h0

theorem markedFor_updateJobSent (s : List CronJob) (i J : String) (ts : Int)
    (h : markedFor s J = true) :
    markedFor (updateJobSent s i ts) J = true := by
  rw [markedFor_iff] at h ⊢
  intro j hj hid
  obtain ⟨j0, hj0, hfj⟩ := List.mem_map.mp hj
  by_cases h0 : j0.id = i
  · rw [if_pos h0] at hfj
    rw [← hfj]
    rfl
  · rw [if_neg h0] at hfj
    rw [← hfj]
    rw [← hfj] at hid
    exact h j0 hj0 hid

theorem markedFor_updateJobSent_ne (s : List CronJob) (i J : String) (ts : Int)
    (hne : i ≠ J) :
    markedFor (updateJobSent s i ts) J = markedFor s J := by
  rw [Bool.eq_iff_iff, markedFor_iff, markedFor_iff]
  constructor
  · intro h j0 hj0 hid
    have hmem : (if j0.id = i then { j0 with sentAtMs := some ts } else j0) ∈
        updateJobSent s i ts := List.mem_map.mpr ⟨j0, hj0, rfl⟩
    have hidf := updateJobSent_id i ts j0
    have := h _ hmem (by rw [hidf]; exact hid)
    rw [if_neg (by rw [hid]; exact fun hc => hne hc.symm)] at this
    exact this
  · intro h j hj hid
    obtain ⟨j0, hj0, hfj⟩ := List.mem_map.mp hj
    by_cases h0 : j0.id = i
    · rw [if_pos h0] at hfj
      rw [← hfj]
      rfl
    · rw [if_neg h0] at hfj
      rw [← hfj]
      rw [← hfj] at hid
      exact h j0 hj0 hid

theorem markedFor_removeJob_ne (s : List CronJob) (i J : String) (hne : i ≠ J) :
    markedFor (removeJob s i) J = markedFor s J := by
  rw [Bool.eq_iff_iff, markedFor_iff, markedFor_iff]
  constructor
  · intro h j hj hid
    refine h j (List.mem_filter.mpr ⟨hj, ?_⟩) hid
    simp only [ne_eq, decide_eq_true_eq]
    rw [hid]
    exact fun hc => hne hc.symm
  · intro h j hj hid
    exact h j (List.mem_filter.mp hj).1 hid

theorem markedFor_removeJob_self (s : List CronJob) (i : String) :
    markedFor (removeJob s i) i = true := by
  rw [markedFor_iff]
  intro j hj hid
  have := (List.mem_filter.mp hj).2
  simp only [ne_eq, decide_eq_true_eq] at this
  exact absurd hid this

theorem removeJob_ids_sublist (s : List CronJob) (i : String) :
    ((removeJob s i).map (·.id)).Sublist (s.map (·.id)) :=
  (List.filter_sublist s).map (·.id)

theorem foldStore_cons (now : Int) (j : CronJob) (rest : List CronJob)
    (st : List CronJob) :
    foldStore now (j :: rest) st =
      foldStore now rest
        (if selOverdue now j = true then updateJobSent st j.id now else st) := rfl

theorem processAtJobs_spec (rs : RunnerRefs) (now : Int) :
    ∀ (l : List CronJob) (acc : StartOut),
      (processAtJobs rs now l acc).pending =
        acc.pending ++ (l.filter (selOverdue now)).map (·.id) ∧
      (processAtJobs rs now l acc).timers =
        acc.timers ++ (l.filter (selFuture rs now)).map
          (fun j => (j.id, (scheduleOneShot rs j now).getD 0)) ∧
      (processAtJobs rs now l acc).store = foldStore now l acc.store := by
  intro l
  induction l with
  | nil => intro acc; exact ⟨by simp [processAtJobs], by simp [processAtJobs], rfl⟩
  | cons j rest ih =>
    intro acc
    by_cases hs : j.sentAtMs.isSome
    · have hsel1 : selOverdue now j = false := by simp [selOverdue, hs]
      have hsel2 : selFuture rs now j = false := by simp [selFuture, hs]
      have hstepj : stepAtJob rs now acc j = acc := by simp [stepAtJob, hs]
      obtain ⟨hp, ht, hst⟩ := ih (stepAtJob rs now acc j)
      rw [hstepj] at hp ht hst
      refine ⟨?_, ?_, ?_⟩
      · show (processAtJobs rs now rest (stepAtJob rs now acc j)).pending = _
        rw [hstepj, hp, List.filter_cons, if_neg (by simp [hsel1])]
      · show (processAtJobs rs now rest (stepAtJob rs now acc j)).timers = _
        rw [hstepj, ht, List.filter_cons, if_neg (by simp [hsel2])]
      · show (processAtJobs rs now rest (stepAtJob rs now acc j)).store = _
        rw [hstepj, hst, foldStore_cons, if_neg (by simp [hsel1])]
    · cases hat : atMsOf j with
      | none =>
        have hsel1 : selOverdue now j = false := by simp [selOverdue, hs, hat]
        have hsel2 : selFuture rs now j = false := by simp [selFuture, hs, hat]
        have hstepj : stepAtJob rs now acc j = acc := by simp [stepAtJob, hs, hat]
        obtain ⟨hp, ht, hst⟩ := ih (stepAtJob rs now acc j)
        rw [hstepj] at hp ht hst
        refine ⟨?_, ?_, ?_⟩
        · show (processAtJobs rs now rest (stepAtJob rs now acc j)).pending = _
          rw [hstepj, hp, List.filter_cons, if_neg (by simp [hsel1])]
        · show (processAtJobs rs now rest (stepAtJob rs now acc j)).timers = _
          rw [hstepj, ht, List.filter_cons, if_neg (by simp [hsel2])]
        · show (processAtJobs rs now rest (stepAtJob rs now acc j)).store = _
          rw [hstepj, hst, foldStore_cons, if_neg (by simp [hsel1])]
      | some a =>
        by_cases hgt : a > now
        · cases hsch : scheduleOneShot rs j now with
          | some d =>
            have hsel1 : selOverdue now j = false := by
              simp [selOverdue, hs, hat]
              omega
            have hsel2 : selFuture rs now j = true := by
              simp [selFuture, hs, hat, hsch, hgt]
            have hstepj : stepAtJob rs now acc j =
                { acc with timers := acc.timers ++ [(j.id, d)] } := by
              simp [stepAtJob, hs, hat, hgt, hsch]
            obtain ⟨hp, ht, hst⟩ := ih (stepAtJob rs now acc j)
            rw [hstepj] at hp ht hst
            refine ⟨?_, ?_, ?_⟩
            · show (processAtJobs rs now rest (stepAtJob rs now acc j)).pending = _
              rw [hstepj, hp, List.filter_cons, if_neg (by simp [hsel1])]
            · show (processAtJobs rs now rest (stepAtJob rs now acc j)).timers = _
              rw [hstepj, ht, List.filter_cons, if_pos (by simp [hsel2]), List.map_cons,
                hsch]
              simp
            · show (processAtJobs rs now rest (stepAtJob rs now acc j)).store = _
              rw [hstepj, hst, foldStore_cons, if_neg (by simp [hsel1])]
          | none =>
            have hsel1 : selOverdue now j = false := by
              simp [selOverdue, hs, hat]
              omega
            have hsel2 : selFuture rs now j = false := by
              simp [selFuture, hs, hat, hsch]
            have hstepj : stepAtJob rs now acc j = acc := by
              simp [stepAtJob, hs, hat, hgt, hsch]
            obtain ⟨hp, ht, hst⟩ := ih (stepAtJob rs now acc j)
            rw [hstepj] at hp ht hst
            refine ⟨?_, ?_, ?_⟩
            · show (processAtJobs rs now rest (stepAtJob rs now acc j)).pending = _
              rw [hstepj, hp, List.filter_cons, if_neg (by simp [hsel1])]
            · show (processAtJobs rs now rest (stepAtJob rs now acc j)).timers = _
              rw [hstepj, ht, List.filter_cons, if_neg (by simp [hsel2])]
            · show (processAtJobs rs now rest (stepAtJob rs now acc j)).store = _
              rw [hstepj, hst, foldStore_cons, if_neg (by simp [hsel1])]
        · have hsel1 : selOverdue now j = true := by
            simp [selOverdue, hs, hat]
            omega
          have hsel2 : selFuture rs now j = false := by
            simp [selFuture, hs, hat]
            omega
          have hstepj : stepAtJob rs now acc j =
              { store := updateJobSent acc.store j.id now
                timers := acc.timers
                pending := acc.pending ++ [j.id] } := by
            simp [stepAtJob, hs, hat, hgt]
          obtain ⟨hp, ht, hst⟩ := ih (stepAtJob rs now acc j)
          rw [hstepj] at hp ht hst
          refine ⟨?_, ?_, ?_⟩
          · show (processAtJobs rs now rest (stepAtJob rs now acc j)).pending = _
            rw [hstepj, hp, List.filter_cons, if_pos (by simp [hsel1]), List.map_cons]
            simp
          · show (processAtJobs rs now rest (stepAtJob rs now acc j)).timers = _
            rw [hstepj, ht, List.filter_cons, if_neg (by simp [hsel2])]
          · show (processAtJobs rs now rest (stepAtJob rs now acc j)).store = _
            rw [hstepj, hst, foldStore_cons, if_pos (by simp [hsel1])]

theorem countP_filter_two_disjoint {α : Type} (q p1 p2 : α → Bool)
    (hd : ∀ a, ¬(p1 a = true ∧ p2 a = true)) :
    ∀ l : List α,
      (l.filter p1).countP q + (l.filter p2).countP q ≤ l.countP q := by
  intro l
  induction l with
  | nil => simp
  | cons a rest ih =>
    rw [List.filter_cons, List.filter_cons, List.countP_cons]
    by_cases h1 : p1 a = true
    · rw [if_pos h1, if_neg (fun hc => hd a ⟨h1, hc⟩), List.countP_cons]
      by_cases hq : q a = true <;> simp [hq] <;> omega
    · rw [if_neg h1]
      by_cases h2 : p2 a = true
      · rw [if_pos h2, List.countP_cons]
        by_cases hq : q a = true <;> simp [hq] <;> omega
      · rw [if_neg h2]
        by_cases hq : q a = true <;> simp [hq] <;> omega

theorem countP_id_le_one_of_nodup (J : String) :
    ∀ l : List CronJob, (l.map (·.id)).Nodup →
      l.countP (fun j => j.id == J) ≤ 1 := by
  intro l
  induction l with
  | nil => intro _; simp
  | cons a rest ih =>
    intro hnd
    rw [List.map_cons, List.nodup_cons] at hnd
    rw [List.countP_cons]
    by_cases ha : a.id = J
    · have hz : rest.countP (fun j => j.id == J) = 0 := by
        rw [List.countP_eq_zero]
        intro j hj
        simp only [beq_iff_eq]
        intro hc
        exact hnd.1 (by rw [ha, ← hc]; exact List.mem_map_of_mem (·.id) hj)
      simp [ha, hz]
    · have := ih hnd.2
      simp only [beq_iff_eq, ha]
      simp
      omega

theorem foldStore_ids (now : Int) :
    ∀ (l : List CronJob) (st : List CronJob),
      (foldStore now l st).map (·.id) = st.map (·.id) := by
  intro l
  induction l with
  | nil => intro st; rfl
  | cons j rest ih =>
    intro st
    rw [foldStore_cons]
    by_cases hsel : selOverdue now j = true
    · rw [if_pos hsel, ih, updateJobSent_ids]
    · rw [if_neg hsel, ih]

theorem markedFor_foldStore (now : Int) (J : String) :
    ∀ (l : List CronJob) (st : List CronJob), markedFor st J = true →
      markedFor (foldStore now l st) J = true := by
  intro l
  induction l with
  | nil => intro st h; exact h
  | cons j rest ih =>
    intro st h
    rw [foldStore_cons]
    by_cases hsel : selOverdue now j = true
    · rw [if_pos hsel]
      exact ih _ (markedFor_updateJobSent _ _ _ _ h)
    · rw [if_neg hsel]
      exact ih _ h

theorem markedFor_foldStore_of_mem (now : Int) (J : String) :
    ∀ (l : List CronJob) (st : List CronJob),
      J ∈ (l.filter (selOverdue now)).map (·.id) →
      markedFor (foldStore now l st) J = true := by
  intro l
  induction l with
  | nil => intro st h; simp at h
  | cons j rest ih =>
    intro st h
    rw [foldStore_cons]
    by_cases hsel : selOverdue now j = true
    · rw [if_pos hsel]
      rw [List.filter_cons, if_pos (by simp [hsel]), List.map_cons] at h
      rcases List.mem_cons.mp h with hJ | hrest
      · exact markedFor_foldStore now J rest _
          (by rw [hJ]; exact markedFor_updateJobSent_self _ _ _)
      · exact ih _ hrest
    · rw [if_neg hsel]
      rw [List.filter_cons, if_neg (by simpa using hsel)] at h
      exact ih _ h

theorem markedFor_foldStore_not_mem (now : Int) (J : String) :
    ∀ (l : List CronJob) (st : List CronJob),
      J ∉ (l.filter (selOverdue now)).map (·.id) →
      markedFor (foldStore now l st) J = markedFor st J := by
  intro l
  induction l with
  | nil => intro st _; rfl
  | cons j rest ih =>
    intro st h
    rw [foldStore_cons]
    by_cases hsel : selOverdue now j = true
    · rw [List.filter_cons, if_pos (by simp [hsel]), List.map_cons] at h
      have hne : j.id ≠ J := fun hc => h (List.mem_cons.mpr (Or.inl hc.symm))
      have hrest : J ∉ (rest.filter (selOverdue now)).map (·.id) :=
        fun hc => h (List.mem_cons.mpr (Or.inr hc))
      rw [if_pos hsel, ih _ hrest, markedFor_updateJobSent_ne _ _ _ _ hne]
    · rw [List.filter_cons, if_neg (by simpa using hsel)] at h
      rw [if_neg hsel]
      exact ih _ h

theorem selOverdue_selFuture_disjoint (rs : RunnerRefs) (now : Int) (j : CronJob) :
    ¬(selFuture rs now j = true ∧ selOverdue now j = true) := by
  rintro ⟨h1, h2⟩
  cases hat : atMsOf j with
  | none => simp [selOverdue, hat] at h2
  | some a =>
    simp only [selFuture, hat, Bool.and_eq_true, decide_eq_true_eq] at h1
    simp only [selOverdue, hat, Bool.and_eq_true, decide_eq_true_eq] at h2
    omega

theorem sel_false_of_sent (rs : RunnerRefs) (now : Int) (j : CronJob)
    (h : j.sentAtMs.isSome = true) :
    selOverdue now j = false ∧ selFuture rs now j = false := by
  constructor <;> simp [selOverdue, selFuture, h]

theorem startCronAt_pending (rs : RunnerRefs) (store0 : List CronJob) (now : Int) :
    (startCronAt rs store0 now).pending =
      ((store0.filter isAtJob).filter (selOverdue now)).map (·.id) := by
  have h := (processAtJobs_spec rs now (store0.filter isAtJob)
    { store := store0, timers := [], pending := [] }).1
  simpa [startCronAt] using h

theorem startCronAt_timers (rs : RunnerRefs) (store0 : List CronJob) (now : Int) :
    (startCronAt rs store0 now).timers =
      ((store0.filter isAtJob).filter (selFuture rs now)).map
        (fun j => (j.id, (scheduleOneShot rs j now).getD 0)) := by
  have h := (processAtJobs_spec rs now (store0.filter isAtJob)
    { store := store0, timers := [], pending := [] }).2.1
  simpa [startCronAt] using h

theorem startCronAt_store (rs : RunnerRefs) (store0 : List CronJob) (now : Int) :
    (startCronAt rs store0 now).store =
      foldStore now (store0.filter isAtJob) store0 := by
  exact (processAtJobs_spec rs now (store0.filter isAtJob)
    { store := store0, timers := [], pending := [] }).2.2

theorem startCronAt_pending_count (rs : RunnerRefs) (store0 : List CronJob)
    (now : Int) (J : String) :
    (startCronAt rs store0 now).pending.count J =
      ((store0.filter isAtJob).filter (selOverdue now)).countP
        (fun j => j.id == J) := by
  rw [startCronAt_pending, List.count, List.countP_map]
  rfl

theorem startCronAt_timers_count (rs : RunnerRefs) (store0 : List CronJob)
    (now : Int) (J : String) :
    (startCronAt rs store0 now).timers.countP (fun p => p.1 == J) =
      ((store0.filter isAtJob).filter (selFuture rs now)).countP
        (fun j => j.id == J) := by
  rw [startCronAt_timers, List.countP_map]
  rfl

theorem startCronAt_summary (rs : RunnerRefs) (store0 : List CronJob)
    (now : Int) (J : String) (hnd : (store0.map (·.id)).Nodup) :
    ((startCronAt rs store0 now).store.map (·.id) = store0.map (·.id)) ∧
    ((startCronAt rs store0 now).timers.countP (fun p => p.1 == J) +
      (startCronAt rs store0 now).pending.count J ≤ 1) ∧
    (1 ≤ (startCronAt rs store0 now).pending.count J →
      markedFor (startCronAt rs store0 now).store J = true) ∧
    (markedFor (startCronAt rs store0 now).store J = true →
      (startCronAt rs store0 now).timers.countP (fun p => p.1 == J) = 0) ∧
    (markedFor store0 J = true →
      (startCronAt rs store0 now).timers.countP (fun p => p.1 == J) = 0 ∧
      (startCronAt rs store0 now).pending.count J = 0 ∧
      markedFor (startCronAt rs store0 now).store J = true) := by
  set A := store0.filter isAtJob with hA
  have hndA : (A.map (·.id)).Nodup :=
    List.Nodup.sublist ((List.filter_sublist store0).map (·.id)) hnd
  have hpc := startCronAt_pending_count rs store0 now J
  have htc := startCronAt_timers_count rs store0 now J
  have hst := startCronAt_store rs store0 now
  rw [← hA] at hpc htc hst
  have hsum : (A.filter (selFuture rs now)).countP (fun j => j.id == J) +
      (A.filter (selOverdue now)).countP (fun j => j.id == J) ≤ 1 := by
    calc (A.filter (selFuture rs now)).countP (fun j => j.id == J) +
        (A.filter (selOverdue now)).countP (fun j => j.id == J)
        ≤ A.countP (fun j => j.id == J) :=
          countP_filter_two_disjoint _ _ _
            (fun a => selOverdue_selFuture_disjoint rs now a) A
      _ ≤ 1 := countP_id_le_one_of_nodup J A hndA
  refine ⟨?_, ?_, ?_, ?_, ?_⟩
  · rw [hst, foldStore_ids]
  · rw [hpc, htc]
    omega
  · intro hge
    rw [hpc] at hge
    have hpos : 0 < (A.filter (selOverdue now)).countP (fun j => j.id == J) := hge
    obtain ⟨j, hj, hjid⟩ := List.countP_pos_iff.mp hpos
    rw [hst]
    exact markedFor_foldStore_of_mem now J A store0
      (List.mem_map.mpr ⟨j, hj, by simpa using hjid⟩)
  · intro hm
    by_contra h0
    rw [htc] at h0
    have hpos : 0 < (A.filter (selFuture rs now)).countP (fun j => j.id == J) :=
      Nat.pos_of_ne_zero h0
    obtain ⟨j, hj, hjid⟩ := List.countP_pos_iff.mp hpos
    have hjid' : j.id = J := by simpa using hjid
    have hjA : j ∈ A := (List.mem_filter.mp hj).1
    have hjF : selFuture rs now j = true := (List.mem_filter.mp hj).2
    have hover0 : (A.filter (selOverdue now)).countP (fun j => j.id == J) = 0 := by
      omega
    have hnotmem : J ∉ (A.filter (selOverdue now)).map (·.id) := by
      intro hc
      obtain ⟨j', hj', hj'id⟩ := List.mem_map.mp hc
      have : 0 < (A.filter (selOverdue now)).countP (fun j => j.id == J) :=
        List.countP_pos_iff.mpr ⟨j', hj', by simpa using hj'id⟩
      omega
    have hsent : j.sentAtMs.isSome = false := by
      rcases h : j.sentAtMs.isSome
      · rfl
      · rw [selFuture, h] at hjF
        simp at hjF
    have hm0 : markedFor store0 J = false := by
      by_contra hmt
      have hmt' : markedFor store0 J = true := by
        rcases h : markedFor store0 J
        · exact absurd h hmt
        · rfl
      have := (markedFor_iff store0 J).mp hmt' j
        (List.mem_of_mem_filter hjA) hjid'
      rw [hsent] at this
      exact Bool.false_ne_true this
    rw [hst, markedFor_foldStore_not_mem now J A store0 hnotmem, hm0] at hm
    exact Bool.false_ne_true hm
  · intro hm0
    have hselF : ∀ j ∈ A, j.id = J → selFuture rs now j = false := by
      intro j hj hjid
      have := (markedFor_iff store0 J).mp hm0 j (List.mem_of_mem_filter hj) hjid
      exact (sel_false_of_sent rs now j this).2
    have hselO : ∀ j ∈ A, j.id = J → selOverdue now j = false := by
      intro j hj hjid
      have := (markedFor_iff store0 J).mp hm0 j (List.mem_of_mem_filter hj) hjid
      exact (sel_false_of_sent rs now j this).1
    have hcf : (A.filter (selFuture rs now)).countP (fun j => j.id == J) = 0 := by
      rw [List.countP_eq_zero]
      intro j hj
      simp only [beq_iff_eq]
      intro hc
      have hf := hselF j (List.mem_of_mem_filter hj) hc
      have ht := (List.mem_filter.mp hj).2
      rw [hf] at ht
      exact Bool.false_ne_true ht
    have hco : (A.filter (selOverdue now)).countP (fun j => j.id == J) = 0 := by
      rw [List.countP_eq_zero]
      intro j hj
      simp only [beq_iff_eq]
      intro hc
      have hf := hselO j (List.mem_of_mem_filter hj) hc
      have ht := (List.mem_filter.mp hj).2
      rw [hf] at ht
      exact Bool.false_ne_true ht
    have hnotmem : J ∉ (A.filter (selOverdue now)).map (·.id) := by
      intro hcm
      obtain ⟨j2, hj2, hj2id⟩ := List.mem_map.mp hcm
      have : 0 < (A.filter (selOverdue now)).countP (fun j => j.id == J) :=
        List.countP_pos_iff.mpr ⟨j2, hj2, by simpa using hj2id⟩
      omega
    refine ⟨by rw [htc]; exact hcf, by rw [hpc]; exact hco, ?_⟩
    rw [hst, markedFor_foldStore_not_mem now J A store0 hnotmem]
    exact hm0

/-- The volatile and persistent state of the cron process: the persisted
store, the installed one-shot timeouts, the `runJob` calls started but not
finished, and the log of runs performed (each run sends at most one
message, see `runJob_sends_le_one`). -/
structure SysState where
  store : List CronJob
  timers : List (String × Int)
  pending : List String
  runs : List String

/-- Events of a crash/restart history: a process crash followed by a new
process whose startup calls `startCron` (timers and in-flight runs of the
dead process are lost); an in-process `startCron` call (runner.js clears the
timers but in-flight `runJob` calls keep running); a one-shot timeout firing
(runner.js lines 190-195: mark sent, then run); and an asynchronous `runJob`
completing followed by `removeJob`. -/
inductive CronEvent where
  | crashRestart (now : Int) : CronEvent
  | startCronCall (now : Int) : CronEvent
  | timerFire (id : String) (now : Int) : CronEvent
  | runExec (id : String) : CronEvent

/-- One transition of the cron system. -/
def stepEv (rs : RunnerRefs) (s : SysState) : CronEvent → SysState
  | .crashRestart now =>
    let r := startCronAt rs s.store now
    { store := r.store, timers := r.timers, pending := r.pending, runs := s.runs }
  | .startCronCall now =>
    let r := startCronAt rs s.store now
    { store := r.store, timers := r.timers
      pending := s.pending ++ r.pending, runs := s.runs }
  | .timerFire id now =>
    if s.timers.any (fun p => p.1 == id) then
      { store := updateJobSent s.store id now
        timers := s.timers.filter (fun p => p.1 != id)
        pending := s.pending ++ [id]
        runs := s.runs }
    else s
  | .runExec id =>
    if s.pending.contains id then
      { store := removeJob s.store id
        timers := s.timers
        pending := s.pending.erase id
        runs := s.runs ++ [id] }
    else s

/-- Run a history of events from a state. -/
def runEvents (rs : RunnerRefs) (s0 : SysState) (evs : List CronEvent) : SysState :=
  evs.foldl (stepEv rs) s0

/-- Fresh process state over a persisted store. -/
def initState (store0 : List CronJob) : SysState :=
  { store := store0, timers := [], pending := [], runs := [] }

/-- The at-most-once invariant for the one-shot job with id `J`: store ids
stay unique; timers, in-flight runs and completed runs for `J` total at most
one; a pending or completed run implies `J` is marked sent in the store; and
a marked `J` has no timer installed. -/
def Inv (J : String) (s : SysState) : Prop :=
  (s.store.map (·.id)).Nodup ∧
  s.timers.countP (fun p => p.1 == J) + s.pending.count J + s.runs.count J ≤ 1 ∧
  (1 ≤ s.pending.count J + s.runs.count J → markedFor s.store J = true) ∧
  (markedFor s.store J = true → s.timers.countP (fun p => p.1 == J) = 0)

theorem Inv_step (rs : RunnerRefs) (J : String) (s : SysState) (ev : CronEvent)
    (h : Inv J s) : Inv J (stepEv rs s ev) := by
  obtain ⟨hnd, hcnt, hpen, htm⟩ := h
  cases ev with
  | crashRestart now =>
    obtain ⟨hids, hsum, hp, ht, hmk⟩ := startCronAt_summary rs s.store now J hnd
    show Inv J { store := (startCronAt rs s.store now).store
                 timers := (startCronAt rs s.store now).timers
                 pending := (startCronAt rs s.store now).pending, runs := s.runs }
    rcases hm : markedFor s.store J with _ | _
    · have hpr : s.pending.count J + s.runs.count J = 0 := by
        by_contra hc
        have := hpen (by omega)
        rw [hm] at this
        exact Bool.false_ne_true this
      refine ⟨by rw [hids]; exact hnd, ?_, ?_, ht⟩
      · show (startCronAt rs s.store now).timers.countP (fun p => p.1 == J) +
            (startCronAt rs s.store now).pending.count J + s.runs.count J ≤ 1
        omega
      · show 1 ≤ (startCronAt rs s.store now).pending.count J + s.runs.count J →
            markedFor (startCronAt rs s.store now).store J = true
        intro hge
        exact hp (by omega)
    · obtain ⟨ht0, hp0, hm'⟩ := hmk hm
      refine ⟨by rw [hids]; exact hnd, ?_, fun _ => hm', fun _ => ht0⟩
      show (startCronAt rs s.store now).timers.countP (fun p => p.1 == J) +
          (startCronAt rs s.store now).pending.count J + s.runs.count J ≤ 1
      omega
  | startCronCall now =>
    obtain ⟨hids, hsum, hp, ht, hmk⟩ := startCronAt_summary rs s.store now J hnd
    show Inv J { store := (startCronAt rs s.store now).store
                 timers := (startCronAt rs s.store now).timers
                 pending := s.pending ++ (startCronAt rs s.store now).pending
                 runs := s.runs }
    rcases hm : markedFor s.store J with _ | _
    · have hpr : s.pending.count J + s.runs.count J = 0 := by
        by_contra hc
        have := hpen (by omega)
        rw [hm] at this
        exact Bool.false_ne_true this
      refine ⟨by rw [hids]; exact hnd, ?_, ?_, ht⟩
      · show (startCronAt rs s.store now).timers.countP (fun p => p.1 == J) +
            (s.pending ++ (startCronAt rs s.store now).pending).count J +
            s.runs.count J ≤ 1
        rw [List.count_append]
        omega
      · show 1 ≤ (s.pending ++ (startCronAt rs s.store now).pending).count J +
            s.runs.count J →
            markedFor (startCronAt rs s.store now).store J = true
        rw [List.count_append]
        intro hge
        exact hp (by omega)
    · obtain ⟨ht0, hp0, hm'⟩ := hmk hm
      refine ⟨by rw [hids]; exact hnd, ?_, fun _ => hm', fun _ => ht0⟩
      show (startCronAt rs s.store now).timers.countP (fun p => p.1 == J) +
          (s.pending ++ (startCronAt rs s.store now).pending).count J +
          s.runs.count J ≤ 1
      rw [List.count_append]
      omega
  | timerFire id now =>
    show Inv J (if s.timers.any (fun p => p.1 == id) then _ else s)
    by_cases hany : s.timers.any (fun p => p.1 == id) = true
    · rw [if_pos hany]
      by_cases hid : id = J
      · subst hid
        have htpos : 0 < s.timers.countP (fun p => p.1 == id) := by
          obtain ⟨p, hp, hpid⟩ := List.any_eq_true.mp hany
          exact List.countP_pos_iff.mpr ⟨p, hp, hpid⟩
        have hm : markedFor s.store id = false := by
          rcases hmc : markedFor s.store id
          · rfl
          · have := htm hmc
            omega
        have hpr : s.pending.count id + s.runs.count id = 0 := by
          by_contra hc
          have := hpen (by omega)
          rw [hm] at this
          exact Bool.false_ne_true this
        have ht0 : (s.timers.filter (fun p => p.1 != id)).countP
            (fun p => p.1 == id) = 0 := by
          rw [List.countP_eq_zero]
          intro p hp
          intro hcb
          have hne : p.1 ≠ id := by simpa using (List.mem_filter.mp hp).2
          exact hne (by simpa using hcb)
        refine ⟨by rw [updateJobSent_ids]; exact hnd, ?_, ?_, ?_⟩
        · have h1 : List.count id [id] = 1 := by simp
          simp only [List.count_append, ht0, h1]
          omega
        · intro _
          exact markedFor_updateJobSent_self _ _ _
        · intro _
          exact ht0
      · have htJ : (s.timers.filter (fun p => p.1 != id)).countP
            (fun p => p.1 == J) = s.timers.countP (fun p => p.1 == J) := by
          rw [List.countP_filter]
          apply List.countP_congr
          intro p _
          rcases hq : p.1 == J with _ | _
          · simp [hq]
          · have hpj : p.1 = J := by simpa using hq
            have hne : (p.1 == id) = false := by
              rw [hpj]
              exact beq_eq_false_iff_ne.mpr (fun hc => hid hc.symm)
            simp [hq, bne, hne]
        have hcJ : List.count J [id] = 0 := by
          have hbeq : (id == J) = false := beq_eq_false_iff_ne.mpr hid
          simp [List.count_cons, hbeq]
        refine ⟨by rw [updateJobSent_ids]; exact hnd, ?_, ?_, ?_⟩
        · rw [htJ]
          simp only [List.count_append, hcJ]
          omega
        · simp only [List.count_append, hcJ]
          intro hge
          rw [markedFor_updateJobSent_ne _ _ _ _ hid]
          exact hpen (by omega)
        · rw [markedFor_updateJobSent_ne _ _ _ _ hid, htJ]
          exact htm
    · rw [if_neg hany]
      exact ⟨hnd, hcnt, hpen, htm⟩
  | runExec id =>
    show Inv J (if s.pending.contains id then _ else s)
    by_cases hc : s.pending.contains id = true
    · rw [if_pos hc]
      by_cases hid : id = J
      · subst hid
        have hppos : 0 < s.pending.count id := by
          rw [List.count_pos_iff]
          simpa using hc
        have hm : markedFor s.store id = true := hpen (by omega)
        have ht0 := htm hm
        have hpe : (s.pending.erase id).count id = s.pending.count id - 1 :=
          List.count_erase_self id s.pending
        refine ⟨?_, ?_, ?_, ?_⟩
        · exact List.Nodup.sublist (removeJob_ids_sublist s.store id) hnd
        · have h1 : List.count id [id] = 1 := by simp
          simp only [List.count_append, hpe, ht0, h1]
          omega
        · intro _
          exact markedFor_removeJob_self _ _
        · intro _
          exact ht0
      · have hpe : (s.pending.erase id).count J = s.pending.count J :=
          List.count_erase_of_ne (fun hc2 => hid hc2.symm) s.pending
        have hcJ : List.count J [id] = 0 := by
          have hbeq : (id == J) = false := beq_eq_false_iff_ne.mpr hid
          simp [List.count_cons, hbeq]
        refine ⟨?_, ?_, ?_, ?_⟩
        · exact List.Nodup.sublist (removeJob_ids_sublist s.store id) hnd
        · simp only [List.count_append, hpe, hcJ]
          omega
        · simp only [List.count_append, hpe, hcJ]
          intro hge
          rw [markedFor_removeJob_ne _ _ _ hid]
          exact hpen (by omega)
        · rw [markedFor_removeJob_ne _ _ _ hid]
          exact htm
    · rw [if_neg hc]
      exact ⟨hnd, hcnt, hpen, htm⟩

theorem Inv_runEvents (rs : RunnerRefs) (J : String) :
    ∀ (evs : List CronEvent) (s : SysState), Inv J s →
      Inv J (runEvents rs s evs) := by
  intro evs
  induction evs with
  | nil => intro s h; exact h
  | cons ev rest ih =>
    intro s h
    exact ih _ (Inv_step rs J s ev h)

theorem Inv_init (J : String) (store0 : List CronJob)
    (hnd : (store0.map (·.id)).Nodup) : Inv J (initState store0) := by
  refine ⟨hnd, ?_, ?_, ?_⟩ <;> simp [initState]

/-- C1: for a one-shot job, once `sentAtMs` is set, `scheduleOneShot` is a
no-op and `startCron` neither installs a timer nor queues a run for it; a
queued or completed run always finds the job already marked in the store
(sentAtMs is persisted via updateJob before the run begins); across any
history of crashes, restarts, in-process `startCron` calls, timer firings
and run completions, the job is run at most once; and each run sends at
most one outbound message — hence at most one send is attributable to the
job. -/
theorem claim_C1_oneshot_at_most_once :
    (∀ (rs : RunnerRefs) (j : CronJob) (now : Int),
      j.sentAtMs.isSome = true → scheduleOneShot rs j now = none) ∧
    (∀ (rs : RunnerRefs) (store0 : List CronJob) (now : Int) (J : String),
      (store0.map (·.id)).Nodup → markedFor store0 J = true →
      (startCronAt rs store0 now).timers.countP (fun p => p.1 == J) = 0 ∧
      (startCronAt rs store0 now).pending.count J = 0) ∧
    (∀ (rs : RunnerRefs) (store0 : List CronJob) (evs : List CronEvent) (J : String),
      (store0.map (·.id)).Nodup →
      (J ∈ (runEvents rs (initState store0) evs).pending →
        markedFor (runEvents rs (initState store0) evs).store J = true) ∧
      (runEvents rs (initState store0) evs).runs.count J ≤ 1) ∧
    (∀ (job : CronJob) (selfJid : Option String)
      (oc : Nat → AttemptOutcome) (apologyOk : Bool),
      (runJob job selfJid oc apologyOk).sends.length ≤ 1) := by
  refine ⟨?_, ?_, ?_, ?_⟩
  · intro rs j now h
    rcases hsch : j.schedule with _ | s
    · simp [scheduleOneShot, hsch]
    · simp only [scheduleOneShot, hsch]
      by_cases hk : s.kind = "at"
      · rw [if_pos hk]
        rcases hat : s.«at» with _ | a
        · simp [hat]
        · simp only [hat]
          by_cases hs : (rs.hasSock && rs.storePath.isSome) = true
          · rw [if_pos hs, if_pos h]
          · rw [if_neg hs]
      · rw [if_neg hk]
  · intro rs store0 now J hnd hm
    obtain ⟨_, _, _, _, hmk⟩ := startCronAt_summary rs store0 now J hnd
    obtain ⟨ht0, hp0, _⟩ := hmk hm
    exact ⟨ht0, hp0⟩
  · intro rs store0 evs J hnd
    have hInv := Inv_runEvents rs J evs (initState store0) (Inv_init J store0 hnd)
    obtain ⟨_, hcnt, hpen, _⟩ := hInv
    constructor
    · intro hmem
      refine hpen ?_
      have : 0 < (runEvents rs (initState store0) evs).pending.count J :=
        List.count_pos_iff.mpr hmem
      omega
    · omega
  · exact runJob_sends_le_one

/-- C1 witness: a marked one-shot is skipped everywhere, and an overdue
fresh one-shot runs exactly once across a restart, a duplicate restart and
its run completion. -/
theorem claim_C1_witness :
    scheduleOneShot { hasSock := true, storePath := some "p" } { id := "1", name := "n", enabled := true, schedule := some { kind := "at", «at» := some 10, expr := none, tz := none }, message := "m", jid := some "j", sentAtMs := some 4 } 5 = none ∧
    ((startCronAt { hasSock := true, storePath := some "p" } [{ id := "1", name := "n", enabled := true, schedule := some { kind := "at", «at» := some 10, expr := none, tz := none }, message := "m", jid := some "j", sentAtMs := some 4 }] 5).timers.countP (fun p => p.1 == "1") = 0 ∧
      (startCronAt { hasSock := true, storePath := some "p" } [{ id := "1", name := "n", enabled := true, schedule := some { kind := "at", «at» := some 10, expr := none, tz := none }, message := "m", jid := some "j", sentAtMs := some 4 }] 5).pending.count "1" = 0) ∧
    (("1" ∈ (runEvents { hasSock := true, storePath := some "p" } (initState [{ id := "1", name := "n", enabled := true, schedule := some { kind := "at", «at» := some 2, expr := none, tz := none }, message := "m", jid := some "j", sentAtMs := none }]) [.crashRestart 5, .crashRestart 6, .runExec "1"]).pending → markedFor (runEvents { hasSock := true, storePath := some "p" } (initState [{ id := "1", name := "n", enabled := true, schedule := some { kind := "at", «at» := some 2, expr := none, tz := none }, message := "m", jid := some "j", sentAtMs := none }]) [.crashRestart 5, .crashRestart 6, .runExec "1"]).store "1" = true) ∧
      (runEvents { hasSock := true, storePath := some "p" } (initState [{ id := "1", name := "n", enabled := true, schedule := some { kind := "at", «at» := some 2, expr := none, tz := none }, message := "m", jid := some "j", sentAtMs := none }]) [.crashRestart 5, .crashRestart 6, .runExec "1"]).runs.count "1" ≤ 1) ∧
    (runJob { id := "1", name := "n", enabled := true, schedule := some { kind := "at", «at» := some 2, expr := none, tz := none }, message := "m", jid := some "j", sentAtMs := none } none (fun _ => .ok (some "hello")) true).sends.length ≤ 1 :=
  ⟨claim_C1_oneshot_at_most_once.1 _ _ 5 (by decide),
   claim_C1_oneshot_at_most_once.2.1 _ _ 5 "1" (by decide) (by decide),
   claim_C1_oneshot_at_most_once.2.2.1 _ _ _ "1" (by decide),
   claim_C1_oneshot_at_most_once.2.2.2 _ none _ true⟩

theorem filter_comm {α : Type} (p q : α → Bool) (l : List α) :
    (l.filter p).filter q = (l.filter q).filter p := by
  induction l with
  | nil => rfl
  | cons a rest ih =>
    by_cases hp : p a = true <;> by_cases hq : q a = true <;>
      simp [List.filter_cons, hp, hq, ih]

theorem filter_id_eq_singleton (j : CronJob) :
    ∀ l : List CronJob, (l.map (·.id)).Nodup → j ∈ l →
      l.filter (fun x => x.id == j.id) = [j] := by
  intro l
  induction l with
  | nil => intro _ hmem; cases hmem
  | cons a rest ih =>
    intro hnd hmem
    rw [List.map_cons, List.nodup_cons] at hnd
    rw [List.filter_cons]
    rcases List.mem_cons.mp hmem with rfl | hmem2
    · rw [if_pos (by simp)]
      have hz : rest.filter (fun x => x.id == j.id) = [] := by
        rw [List.filter_eq_nil_iff]
        intro x hx
        simp only [beq_iff_eq]
        intro hc
        exact hnd.1 (hc ▸ List.mem_map_of_mem (·.id) hx)
      rw [hz]
    · have ha : (a.id == j.id) = false := by
        refine beq_eq_false_iff_ne.mpr ?_
        intro hc
        exact hnd.1 (hc ▸ List.mem_map_of_mem (·.id) hmem2)
      rw [if_neg (by simp [ha])]
      exact ih hnd.2 hmem2

/-- C7: for an enabled stored one-shot with `sentAtMs` unset (socket and
store path wired, store ids unique): when `at` is in the future, `startCron`
installs exactly one timer for the job, with delay `at - now`, and queues no
immediate run; when `at` is due or past, `startCron` marks `sentAtMs` in the
store and queues exactly one immediate run, whose completion records the run
and removes the job from the store. -/
theorem claim_C7_startcron_oneshots
    (rs : RunnerRefs) (store0 : List CronJob) (now : Int) (j : CronJob)
    (sch : Schedule) (atMs : Int)
    (hmem : j ∈ store0) (hen : j.enabled = true)
    (hsch : j.schedule = some sch) (hk : sch.kind = "at")
    (hat : sch.«at» = some atMs) (hsent : j.sentAtMs = none)
    (hsock : rs.hasSock = true) (hsp : rs.storePath.isSome = true)
    (hnd : (store0.map (·.id)).Nodup) :
    (atMs > now →
      (startCronAt rs store0 now).timers.filter (fun p => p.1 == j.id) =
        [(j.id, atMs - now)] ∧
      (startCronAt rs store0 now).pending.count j.id = 0) ∧
    (atMs ≤ now →
      markedFor (startCronAt rs store0 now).store j.id = true ∧
      (startCronAt rs store0 now).pending.count j.id = 1 ∧
      (stepEv rs
        { store := (startCronAt rs store0 now).store
          timers := (startCronAt rs store0 now).timers
          pending := (startCronAt rs store0 now).pending
          runs := [] } (.runExec j.id)).runs = [j.id] ∧
      (∀ j2 ∈ (stepEv rs
        { store := (startCronAt rs store0 now).store
          timers := (startCronAt rs store0 now).timers
          pending := (startCronAt rs store0 now).pending
          runs := [] } (.runExec j.id)).store, j2.id ≠ j.id)) := by
  have hAmem : j ∈ store0.filter isAtJob := by
    refine List.mem_filter.mpr ⟨hmem, ?_⟩
    simp [isAtJob, hen, hsch, hk, hat]
  have hndA : ((store0.filter isAtJob).map (·.id)).Nodup :=
    List.Nodup.sublist ((List.filter_sublist store0).map (·.id)) hnd
  have hAj : (store0.filter isAtJob).filter (fun x => x.id == j.id) = [j] :=
    filter_id_eq_singleton j (store0.filter isAtJob) hndA hAmem
  have hatm : atMsOf j = some atMs := by simp [atMsOf, hsch, hat]
  constructor
  · intro hgt
    have hsos : scheduleOneShot rs j now = some (atMs - now) := by
      simp only [scheduleOneShot, hsch]
      rw [if_pos hk]
      simp only [hat]
      rw [if_pos (by rw [hsock, hsp]; rfl), if_neg (by rw [hsent]; simp),
        if_pos (by omega)]
    have hsF : selFuture rs now j = true := by
      simp [selFuture, hsent, hatm, hsos, hgt]
    have hsO : selOverdue now j = false := by
      simp [selOverdue, hsent, hatm]
      omega
    constructor
    · rw [startCronAt_timers, List.filter_map]
      show ((((store0.filter isAtJob).filter (selFuture rs now)).filter
        (fun x => x.id == j.id)).map
          (fun j => (j.id, (scheduleOneShot rs j now).getD 0))) = _
      rw [filter_comm, hAj, List.filter_cons, if_pos (by simp [hsF]),
        List.filter_nil, List.map_cons, List.map_nil, hsos]
      rfl
    · rw [startCronAt_pending_count, List.countP_eq_length_filter, filter_comm,
        hAj, List.filter_cons, if_neg (by simp [hsO]), List.filter_nil]
      rfl
  · intro hle
    have hsO : selOverdue now j = true := by
      simp [selOverdue, hsent, hatm, hle]
    have hpc : (startCronAt rs store0 now).pending.count j.id = 1 := by
      rw [startCronAt_pending_count, List.countP_eq_length_filter, filter_comm,
        hAj, List.filter_cons, if_pos (by simp [hsO]), List.filter_nil]
      rfl
    have hmk : markedFor (startCronAt rs store0 now).store j.id = true := by
      rw [startCronAt_store]
      refine markedFor_foldStore_of_mem now j.id (store0.filter isAtJob) store0 ?_
      exact List.mem_map.mpr ⟨j, List.mem_filter.mpr ⟨hAmem, hsO⟩, rfl⟩
    have hmemp : j.id ∈ (startCronAt rs store0 now).pending := by
      rw [← List.count_pos_iff, hpc]
      omega
    have hcont : (startCronAt rs store0 now).pending.contains j.id = true := by
      simpa using hmemp
    have hstepeq : stepEv rs
        { store := (startCronAt rs store0 now).store
          timers := (startCronAt rs store0 now).timers
          pending := (startCronAt rs store0 now).pending
          runs := [] } (.runExec j.id) =
        { store := removeJob (startCronAt rs store0 now).store j.id
          timers := (startCronAt rs store0 now).timers
          pending := (startCronAt rs store0 now).pending.erase j.id
          runs := [] ++ [j.id] } := by
      rw [show stepEv rs
          { store := (startCronAt rs store0 now).store
            timers := (startCronAt rs store0 now).timers
            pending := (startCronAt rs store0 now).pending
            runs := [] } (.runExec j.id) =
          (if (startCronAt rs store0 now).pending.contains j.id then
            { store := removeJob (startCronAt rs store0 now).store j.id
              timers := (startCronAt rs store0 now).timers
              pending := (startCronAt rs store0 now).pending.erase j.id
              runs := [] ++ [j.id] }
          else
            { store := (startCronAt rs store0 now).store
              timers := (startCronAt rs store0 now).timers
              pending := (startCronAt rs store0 now).pending
              runs := [] }) from rfl, if_pos hcont]
    refine ⟨hmk, hpc, ?_, ?_⟩
    · rw [hstepeq]
      rfl
    · intro j2 hj2
      rw [hstepeq] at hj2
      have := (List.mem_filter.mp hj2).2
      simpa using this

/-- C7 witness: a future one-shot gets one timer; the same job overdue is
marked, run once and removed. -/
theorem claim_C7_witness :
    ((10 : Int) > 5 →
      (startCronAt { hasSock := true, storePath := some "p" } [{ id := "1", name := "n", enabled := true, schedule := some { kind := "at", «at» := some 10, expr := none, tz := none }, message := "m", jid := some "j", sentAtMs := none }] 5).timers.filter (fun p => p.1 == "1") = [("1", 10 - 5)] ∧
      (startCronAt { hasSock := true, storePath := some "p" } [{ id := "1", name := "n", enabled := true, schedule := some { kind := "at", «at» := some 10, expr := none, tz := none }, message := "m", jid := some "j", sentAtMs := none }] 5).pending.count "1" = 0) ∧
    ((10 : Int) ≤ 5 →
      markedFor (startCronAt { hasSock := true, storePath := some "p" } [{ id := "1", name := "n", enabled := true, schedule := some { kind := "at", «at» := some 10, expr := none, tz := none }, message := "m", jid := some "j", sentAtMs := none }] 5).store "1" = true ∧
      (startCronAt { hasSock := true, storePath := some "p" } [{ id := "1", name := "n", enabled := true, schedule := some { kind := "at", «at» := some 10, expr := none, tz := none }, message := "m", jid := some "j", sentAtMs := none }] 5).pending.count "1" = 1 ∧
      (stepEv { hasSock := true, storePath := some "p" } { store := (startCronAt { hasSock := true, storePath := some "p" } [{ id := "1", name := "n", enabled := true, schedule := some { kind := "at", «at» := some 10, expr := none, tz := none }, message := "m", jid := some "j", sentAtMs := none }] 5).store, timers := (startCronAt { hasSock := true, storePath := some "p" } [{ id := "1", name := "n", enabled := true, schedule := some { kind := "at", «at» := some 10, expr := none, tz := none }, message := "m", jid := some "j", sentAtMs := none }] 5).timers, pending := (startCronAt { hasSock := true, storePath := some "p" } [{ id := "1", name := "n", enabled := true, schedule := some { kind := "at", «at» := some 10, expr := none, tz := none }, message := "m", jid := some "j", sentAtMs := none }] 5).pending, runs := [] } (.runExec "1")).runs = ["1"] ∧
      (∀ j2 ∈ (stepEv { hasSock := true, storePath := some "p" } { store := (startCronAt { hasSock := true, storePath := some "p" } [{ id := "1", name := "n", enabled := true, schedule := some { kind := "at", «at» := some 10, expr := none, tz := none }, message := "m", jid := some "j", sentAtMs := none }] 5).store, timers := (startCronAt { hasSock := true, storePath := some "p" } [{ id := "1", name := "n", enabled := true, schedule := some { kind := "at", «at» := some 10, expr := none, tz := none }, message := "m", jid := some "j", sentAtMs := none }] 5).timers, pending := (startCronAt { hasSock := true, storePath := some "p" } [{ id := "1", name := "n", enabled := true, schedule := some { kind := "at", «at» := some 10, expr := none, tz := none }, message := "m", jid := some "j", sentAtMs := none }] 5).pending, runs := [] } (.runExec "1")).store, j2.id ≠ "1")) :=
  claim_C7_startcron_oneshots { hasSock := true, storePath := some "p" }
    [{ id := "1", name := "n", enabled := true, schedule := some { kind := "at", «at» := some 10, expr := none, tz := none }, message := "m", jid := some "j", sentAtMs := none }] 5
    { id := "1", name := "n", enabled := true, schedule := some { kind := "at", «at» := some 10, expr := none, tz := none }, message := "m", jid := some "j", sentAtMs := none }
    { kind := "at", «at» := some 10, expr := none, tz := none } 10
    (by decide) rfl rfl rfl rfl rfl rfl rfl (by decide)

end CowCode

